import Mathlib

/-!
Verification development for the dddl SQL `CREATE TABLE` parser.

The tokenizer is embedded from `src/unnamed/part_001` (the `tokenizer`
module) and the parser from `src/unnamed/part_000` (the `parser` module).
JS arrays of Unicode codepoints are modelled as `List Char`, class
hierarchies as inductive types, thrown exceptions as explicit error
results, and the parser's integer cursor as a `Nat`.  Loops that the
source writes as `for(;;)` / `do..while` are modelled by an explicit
fuel argument; every loop whose body consumes at least one token or
character is run with fuel `length + 1`, which such a loop can never
exhaust, so the fuel branch is unreachable for them.  Loops of the
source that can make no progress keep their fuel exposed so that their
non-termination is expressible (`spin` = the source loops forever).
-/

namespace DDDL

set_option maxHeartbeats 2000000

/-! ## Tokenizer data model (part_001, lines 3-27)

One constructor per token class of the source.  `NewLine extends
Whitespace extends Token`, so `newline` is also whitespace;
`Cmmnt extends Token` only (it is NOT a `Whitespace` subclass in the
source).  `NationalStringLiteral` / `HexStringLiteral` carry
`content` and `prefix` fields, with `value = prefix + content`. -/

inductive Token where
  | ws (s : String)
  | newline (s : String)
  | word (s : String)
  | sqs (s : String)
  | num (s : String)
  | lparenTk
  | rparenTk
  | commaTk
  | cmmnt (s : String)
  | op (s : String)
  | other (s : String)
  | nsl (content : String) (pfx : String)
  | hxl (content : String) (pfx : String)
  deriving DecidableEq, Repr

/-- `Token.value` getter: the exact literal text of the token
(part_001 line 5). -/
def Token.value : Token → String
  | .ws s => s
  | .newline s => s
  | .word s => s
  | .sqs s => s
  | .num s => s
  | .lparenTk => "("
  | .rparenTk => ")"
  | .commaTk => ","
  | .cmmnt s => s
  | .op s => s
  | .other s => s
  | .nsl content pfx => pfx ++ content
  | .hxl content pfx => pfx ++ content

/-- `Token.length` getter: `value.length` (part_001 line 6). -/
def Token.length (t : Token) : Nat := t.value.length

/-- `instanceof Whitespace` (covers the `NewLine` subclass). -/
def Token.isWhitespace : Token → Bool
  | .ws _ => true
  | .newline _ => true
  | _ => false

/-- `instanceof NewLine`. -/
def Token.isNewLine : Token → Bool
  | .newline _ => true
  | _ => false

/-- Error carrier for `TokenizeError{message, row, col}`
(part_001 lines 123-127; the original rule message is carried as
`msg`, `row`/`col` are 1-based). -/
structure TokErr where
  msg : String
  row : Nat
  col : Nat
  deriving DecidableEq, Repr

/-- Error messages of part_001 lines 69-71. -/
def TOKENIZE_SINGLE_QUOTED_STRING_ERROR : String := "Unterminated string literal"

def TOKENIZE_DELIMITED_STRING_ERROR : String :=
  "Expected close delimiter \" before EOF."

def TOKENIZE_MULTI_LINE_COMMENT_ERROR : String :=
  "Unexpected EOF while in a multi-line comment"

/-- Marker for fuel exhaustion of the scanner's character loop; the
loop consumes at least one character per token, so with the fuel
`length + 1` used by `tokenize` this is unreachable (proved along the
way in the theorems below). -/
def FUEL_ERROR : String := "OUT OF FUEL"

/-- `chars[i]` on a JS array: `undefined` out of range becomes `none`. -/
def getC (cs : List Char) (i : Nat) : Option Char := cs[i]?

/-- `isDigit` (part_001 line 191). -/
def isDigitCh (c : Char) : Bool := '0' ≤ c && c ≤ '9'

/-- `isDelimiteddIdentifierStart` (part_001 line 192). -/
def isDelimiteddIdentifierStart (c : Char) : Bool := c = '"'

/-- `isIdentifierStart` (part_001 line 193). -/
def isIdentifierStart (c : Char) : Bool :=
  c = '@' || c = '#' || c = '_' || ('A' ≤ c && c ≤ 'Z') || ('a' ≤ c && c ≤ 'z')

/-- `isIdentifierPart` (part_001 line 194). -/
def isIdentifierPart (c : Char) : Bool :=
  c = '@' || c = '$' || c = '#' || c = '_' || ('0' ≤ c && c ≤ '9')
    || ('A' ≤ c && c ≤ 'Z') || ('a' ≤ c && c ≤ 'z')

/-- Index loop shared by `takeWhile` / `takeWhileOrError` (part_001
lines 176-190): from `i`, while `i < chars.length` and the advance
callback returns a non-zero step, add the step.  Every advance
callback of the source returns 0, 1 or 2, so the loop makes strict
progress and fuel `chars.length + 1` never runs out. -/
def takeWhileIdx (adv : Char → Nat → List Char → Nat) (chars : List Char) :
    Nat → Nat → Nat
  | 0, i => i
  | fuel + 1, i =>
    if h : i < chars.length then
      let step := adv (chars.get ⟨i, h⟩) i chars
      if step = 0 then i else takeWhileIdx adv chars fuel (i + step)
    else i

/-- `takeWhile` (part_001 lines 176-182): returns
`chars.slice(0, min(i, chars.length))`. -/
def takeWhile (chars : List Char) (testStart : Nat)
    (adv : Char → Nat → List Char → Nat) : String :=
  let i := takeWhileIdx adv chars (chars.length + 1) testStart
  String.mk (chars.take (min i chars.length))

/-- `takeWhileOrError` (part_001 lines 183-190): like `takeWhile` but
throws `msg` when the final index lands exactly on `chars.length`
(note: an index that overshoots the length by a 2-step is NOT caught,
and `slice` clamps it). -/
def takeWhileOrError (chars : List Char) (testStart : Nat)
    (adv : Char → Nat → List Char → Nat) (msg : String) :
    Except String String :=
  let i := takeWhileIdx adv chars (chars.length + 1) testStart
  if i = chars.length then .error msg
  else .ok (String.mk (chars.take i))

/-- Advance callback of `tokenizeSingleQuotedString` (part_001 line
196): keep going while the previous char is not a quote; on a quote
followed by another quote skip both (escaped quote); otherwise stop. -/
def advSqs (c : Char) (i : Nat) (chars : List Char) : Nat :=
  if getC chars (i - 1) ≠ some '\'' then 1
  else if getC chars (i - 1) = some '\'' && c = '\'' then 2
  else 0

/-- `tokenizeSingleQuotedString` (part_001 line 195): scans from index
2, returns the literal including both quotes. -/
def tokenizeSingleQuotedString (chars : List Char) : Except String String :=
  takeWhileOrError chars 2 advSqs TOKENIZE_SINGLE_QUOTED_STRING_ERROR

/-- `tokenizeIdentifier` (part_001 line 197). -/
def tokenizeIdentifier (chars : List Char) : String :=
  takeWhile chars 1 (fun c _ _ => if isIdentifierPart c then 1 else 0)

/-- Advance callback of the delimited-identifier rule (part_001 line
90): continue while the previous char is not the `"` delimiter. -/
def advDelim (_c : Char) (i : Nat) (chars : List Char) : Nat :=
  match getC chars (i - 1) with
  | some p => if isDelimiteddIdentifierStart p then 0 else 1
  | none => 1

/-- Advance callback of the number rule (part_001 line 92). -/
def advNum (c : Char) (_i : Nat) (_chars : List Char) : Nat :=
  if isDigitCh c || c = '.' then 1 else 0

/-- Advance callback of the single-line comment rule (part_001 line
98): continue while not a line feed. -/
def advLineComment (c : Char) (_i : Nat) (_chars : List Char) : Nat :=
  if c ≠ '\n' then 1 else 0

/-- Advance callback of the block comment rule (part_001 line 99):
continue while the two previous chars are not the closing pair. -/
def advBlockComment (_c : Char) (i : Nat) (chars : List Char) : Nat :=
  if getC chars (i - 2) = some '*' && getC chars (i - 1) = some '/' then 0 else 1

/-- The dispatch-and-rule step of part_001: picks the rule key for the
head character (lines 150-154) and runs the rule (lines 74-121) on the
remaining character slice `c :: rest`, producing exactly one token or
a rule error. -/
def ruleTok (c : Char) (rest : List Char) : Except String Token :=
  let chars := c :: rest
  if c = 'N' then
    if getC chars 1 = some '\'' then
      (tokenizeSingleQuotedString (chars.drop 1)).map
        (fun s => Token.nsl s (String.mk [c]))
    else .ok (.word (tokenizeIdentifier chars))
  else if c = 'X' ∨ c = 'x' then
    if getC chars 1 = some '\'' then
      (tokenizeSingleQuotedString (chars.drop 1)).map
        (fun s => Token.hxl s (String.mk [c]))
    else .ok (.word (tokenizeIdentifier chars))
  else if isIdentifierStart c then .ok (.word (tokenizeIdentifier chars))
  else if isDelimiteddIdentifierStart c then
    (takeWhileOrError chars 2 advDelim TOKENIZE_DELIMITED_STRING_ERROR).map .word
  else if isDigitCh c then .ok (.num (takeWhile chars 1 advNum))
  else if c = ' ' then .ok (.ws " ")
  else if c = '\t' then .ok (.ws "\t")
  else if c = '\n' then .ok (.newline "\n")
  else if c = '\r' then
    .ok (if getC chars 1 = some '\n' then .newline "\r\n" else .newline "\r")
  else if c = '\'' then (tokenizeSingleQuotedString chars).map .sqs
  else if c = '(' then .ok .lparenTk
  else if c = ')' then .ok .rparenTk
  else if c = ',' then .ok .commaTk
  else if c = '-' then
    if getC chars 1 = some '-' then .ok (.cmmnt (takeWhile chars 2 advLineComment))
    else .ok (.op "-")
  else if c = '/' then
    if getC chars 1 = some '*' then
      (takeWhileOrError chars 4 advBlockComment TOKENIZE_MULTI_LINE_COMMENT_ERROR).map .cmmnt
    else .ok (.op "/")
  else if c = '+' then .ok (.op "+")
  else if c = '*' then .ok (.op "*")
  else if c = '%' then .ok (.op "%")
  else if c = '|' then
    if getC chars 1 = some '|' then .ok (.op "||") else .ok (.other "|")
  else if c = '=' then
    if getC chars 1 = some '>' then .ok (.op "=>") else .ok (.op "=")
  else if c = '.' then .ok (.op ".")
  else if c = '!' then
    if getC chars 1 = some '=' then .ok (.op "!=")
    else if getC chars 1 = some '!' then .ok (.op "!!")
    else .ok (.op "!")
  else if c = '<' then
    if getC chars 1 = some '=' then .ok (.op "<=")
    else if getC chars 1 = some '>' then .ok (.op "<>")
    else if getC chars 1 = some '<' then .ok (.op "<<")
    else .ok (.op "<")
  else if c = '>' then
    if getC chars 1 = some '=' then .ok (.op ">=")
    else if getC chars 1 = some '>' then .ok (.op ">>")
    else .ok (.op ">")
  else if c = ':' then
    if getC chars 1 = some ':' then .ok (.op "::") else .ok (.op ":")
  else if c = ';' then .ok (.op ";")
  else if c = '\\' then .ok (.op "\\")
  else if c = '[' then .ok (.op "[")
  else if c = ']' then .ok (.op "]")
  else if c = '&' then .ok (.op "&")
  else if c = '^' then .ok (.op "^")
  else if c = '\x7b' then .ok (.op (String.mk ['\x7b']))
  else if c = '\x7d' then .ok (.op (String.mk ['\x7d']))
  else if c = '~' then .ok (.op "~")
  else .ok (.other (String.mk [c]))

/-- The scanner loop of `tokenize` (part_001 lines 142-174): repeat
`ruleTok` on the remaining characters, advance by the token's length
(`i += token.length`), and keep row/column: a `NewLine` token
increments the row and resets the column to 1, any other token adds
its length to the column.  A rule error is wrapped with the current
row/column.  Each produced token has positive length, so fuel
`length + 1` never runs out (the `FUEL_ERROR` branch is dead). -/
def tokenizeAux : Nat → List Char → Nat → Nat → Except TokErr (List Token)
  | 0, _, row, col => .error ⟨FUEL_ERROR, row, col⟩
  | _ + 1, [], _, _ => .ok []
  | fuel + 1, c :: rest, row, col =>
    match ruleTok c rest with
    | .error m => .error ⟨m, row, col⟩
    | .ok t =>
      let rem := (c :: rest).drop t.length
      let row' := if t.isNewLine then row + 1 else row
      let col' := if t.isNewLine then 1 else col + t.length
      match tokenizeAux fuel rem row' col' with
      | .error e => .error e
      | .ok ts => .ok (t :: ts)

/-- `tokenize` (part_001 lines 142-174), on the codepoint list of the
source string, starting at row 1, column 1. -/
def tokenize (src : String) : Except TokErr (List Token) :=
  tokenizeAux (src.data.length + 1) src.data 1 1

/-- Convenience: the token list of a source string that tokenizes
successfully (used to state theorems about concrete inputs). -/
def toks (src : String) : List Token :=
  match tokenize src with
  | .ok ts => ts
  | .error _ => []

/-- Concatenation of all token literals, in order. -/
def concatValues (ts : List Token) : String :=
  ts.foldr (fun t acc => t.value ++ acc) ""


/-! ## Parser data model (part_000 lines 7-90)

AST value classes of the parser module; the `Expr` / `Value` /
operator / column-option classes live in the external `expressions`
and `column-options` modules that are not under src/, so those are
modelled from the spec (each such definition says so). -/

/-- `Ident` (part_000 lines 70-75): name plus optional quoting
delimiter. -/
structure Ident where
  value : String
  quoteStyle : Option String
  deriving DecidableEq, Repr

/-- `ObjectName` (part_000 lines 24-28). -/
structure ObjectName where
  value : List Ident
  deriving DecidableEq, Repr

/-- `ReferencialAction` (part_000 lines 77-80): carries one of the
five action names. -/
structure ReferencialAction where
  name : String
  deriving DecidableEq, Repr

/-- Modelled from the spec: the external data-type catalog
(`./data-types` is not under src/).  Spec section 3 says the catalog
classifies a type name into length-bearing, optional
precision/scale, optional precision, or no-argument shape and
supplies a constructor per shape; we record the (compound) name and
the parsed numeric arguments. -/
structure DataType where
  name : String
  args : List Nat
  deriving DecidableEq, Repr

/-- Modelled from the spec: `values.*` of the external `expressions`
module.  Spec section 3: literal values are boolean, NULL, number,
single-quoted string, national-string and hex-string.  The parser
reads `token.content` for a single-quoted string, but part_001's
`SingleQuotedString` class defines no `content` field, so that read
yields `undefined`, modelled as `none`. -/
inductive Value where
  | boolV (s : String)
  | nullV
  | numberV (s : String)
  | singleQuotedStringV (content : Option String)
  | nationalStringLiteralV (content : String) (pfx : String)
  | hexStringLiteralV (content : String) (pfx : String)
  deriving DecidableEq, Repr

/-- Modelled from the spec: `ops.UnaryOperator` of the external
`expressions` module (wraps the operator's name). -/
structure UnaryOperator where
  name : String
  deriving DecidableEq, Repr

/-- Modelled from the spec: `ops.BinaryOperator` of the external
`expressions` module (wraps the operator's name). -/
structure BinaryOperator where
  name : String
  deriving DecidableEq, Repr

/-- Modelled from the spec: the `Expr` variants of the external
`expressions` module (spec section 3).  `Value` objects implement
`Expr` in the source; here they are injected with `valueE`.
`typedString` carries `Option String` because the parser reads the
missing `content` field of part_001's string token (see `Value`).
The unsupported-but-delimited placeholders (`existsE`, `extractE`,
`listAgg`, `functionE`, `subquery`) carry no structure, as in the
source. -/
inductive Expr where
  | typedString (dt : DataType) (value : Option String)
  | identifier (id : Ident)
  | qualifiedWildcard (idents : List Ident)
  | wildcard
  | valueE (v : Value)
  | unaryOp (op : UnaryOperator) (e : Expr)
  | binaryOp (left : Expr) (op : BinaryOperator) (right : Expr)
  | isNull (e : Expr)
  | isNotNull (e : Expr)
  | between (e : Expr) (negated : Bool) (low : Expr) (high : Expr)
  | inList (e : Expr) (list : List Expr) (negated : Bool)
  | caseE (operand : Option Expr) (conditions : List Expr)
      (results : List Expr) (elseResult : Option Expr)
  | cast (e : Expr) (dt : DataType)
  | collate (e : Expr) (name : ObjectName)
  | existsE
  | extractE
  | listAgg
  | functionE
  | subquery
  deriving Repr

/-- Modelled from the spec: the column-option value objects of the
external `column-options` module (spec section 3, ColumnDef):
`NotNull`, `Null`, `Default expr`, `Unique(isPrimary)`,
`Foreign(table, cols, onDelete, onUpdate)`, `Check(expr)` and the
dialect-specific auto-increment marker (`DiarectSpecific` in the
source's spelling). -/
inductive ColumnOption where
  | notNull
  | nullOpt
  | defaultOpt (e : Expr)
  | uniqueOpt (isPrimary : Bool)
  | foreignOpt (foreignTable : ObjectName) (referredColumns : List Ident)
      (onDelete : Option ReferencialAction) (onUpdate : Option ReferencialAction)
  | checkOpt (e : Expr)
  | diarectSpecific (s : String)
  deriving Repr

/-- `ColumnOptionDef` (part_000 lines 37-42). -/
structure ColumnOptionDef where
  name : Option Ident
  option : ColumnOption
  deriving Repr

/-- `TableConstraint` implementations (part_000 lines 43-67). -/
inductive TableConstraint where
  | unique (name : Option Ident) (columns : List Ident) (isPrimary : Bool)
  | foreignKey (name : Option Ident) (columns : List Ident)
      (foreignTable : ObjectName) (referredColumns : List Ident)
  | check (name : Option Ident) (e : Expr)
  deriving Repr

/-- `ColumnDef` (part_000 lines 29-36). -/
structure ColumnDef where
  name : Ident
  dataType : DataType
  collation : Option ObjectName
  options : List ColumnOptionDef
  deriving Repr

/-- `SqlOption` (part_000 line 68): an opaque placeholder object. -/
inductive SqlOption where
  | mk
  deriving DecidableEq, Repr

/-- `FileFormat` (part_000 line 76): never populated by the grammar. -/
inductive FileFormat where
  | mk
  deriving DecidableEq, Repr

/-- `Query` (part_000 line 69): never populated by the grammar. -/
inductive Query where
  | mk
  deriving DecidableEq, Repr

/-- `CreateTableStatement` (part_000 lines 9-23). -/
structure CreateTableStatement where
  name : ObjectName
  columns : List ColumnDef
  constraints : List TableConstraint
  withOptions : List SqlOption
  orReplace : Bool
  ifNotExists : Bool
  withoutRowid : Bool
  external : Bool
  fileFormat : Option FileFormat
  location : Option String
  query : Option Query
  deriving Repr

/-! ## Spec-modelled keyword table and data-type catalog -/

/-- Modelled from the spec: `keywords.isKeyword` of the external
`keywords` module (not under src/).  Spec section 1: the predicate is
"is this word exactly this keyword"; part_000's own `equalToKeyword`
compares `token.value === keyword`, so equality is exact. -/
def isKeyword (v : String) (k : String) : Bool := v == k

/-- Modelled from the spec: `keywords.isOneOfKeywords` of the
external `keywords` module ("is this word one of this keyword set"). -/
def isOneOfKeywords (v : String) (ks : List String) : Bool := ks.contains v

/-- Modelled from the spec: type names whose catalog shape requires a
`(length)` argument (spec sections 3 and 4.3; `VARCHAR(10)` appears in
the spec's examples). -/
def dataTypeNamesL : List String := ["VARCHAR"]

/-- Modelled from the spec: type names taking an optional
`(precision, scale)` pair. -/
def dataTypeNamesOptPS : List String := ["DECIMAL", "NUMERIC", "DEC"]

/-- Modelled from the spec: type names taking an optional
`(precision)` (`CHAR DEFAULT ...` without arguments appears in the
spec's examples, so `CHAR`'s argument is optional). -/
def dataTypeNamesOptP : List String := ["CHAR", "FLOAT"]

/-- Modelled from the spec: no-argument type names, including the
hard-coded compound names `DOUBLE [PRECISION]` and
`TIME`/`TIMESTAMP` (spec section 4.3), and `INT` from the spec's
examples. -/
def dataTypeNamesNoArgs : List String :=
  ["INT", "INTEGER", "SMALLINT", "BIGINT", "REAL", "BOOLEAN", "DATE",
   "TEXT", "DOUBLE", "DOUBLE PRECISION", "TIME", "TIMESTAMP"]

/-- `types.inDataTypeNameL` (modelled from the spec, see above). -/
def inDataTypeNameL (v : String) : Bool := dataTypeNamesL.contains v

/-- `types.inDataTypeNameOptPS` (modelled from the spec). -/
def inDataTypeNameOptPS (v : String) : Bool := dataTypeNamesOptPS.contains v

/-- `types.inDataTypeNameOptP` (modelled from the spec). -/
def inDataTypeNameOptP (v : String) : Bool := dataTypeNamesOptP.contains v

/-- `types.inDataTypeNameNoArgs` (modelled from the spec). -/
def inDataTypeNameNoArgs (v : String) : Bool := dataTypeNamesNoArgs.contains v

/-- `types.mapperL` (modelled from the spec): length-bearing
constructor. -/
def mapperL (v : String) (len : Nat) : DataType := ⟨v, [len]⟩

/-- `types.mapperOptPS` (modelled from the spec). -/
def mapperOptPS (v : String) (ps : Option (Nat × Nat)) : DataType :=
  match ps with
  | some (p, s) => ⟨v, [p, s]⟩
  | none => ⟨v, []⟩

/-- `types.mapperOptP` (modelled from the spec). -/
def mapperOptP (v : String) (p : Option Nat) : DataType :=
  match p with
  | some n => ⟨v, [n]⟩
  | none => ⟨v, []⟩

/-- `types.mapperNoArgs` (modelled from the spec). -/
def mapperNoArgs (v : String) : DataType := ⟨v, []⟩

/-! ## Parser plumbing (part_000 lines 82-90, 641-688) -/

/-- Result of a parsing step: `ok` carries the value (positions are
carried inside the value where the source returns a
`[nextPosition, value]` pair), `err` is a thrown `ParseError`
message, and `spin` means the modelled source loop never terminates
(or a fuel that is provably large enough for every terminating run
was exhausted). -/
inductive POut (α : Type) where
  | ok (val : α)
  | err (msg : String)
  | spin
  deriving Repr

/-- Sequencing of parser steps: errors and non-termination
propagate. -/
def POut.bind {α β : Type} : POut α → (α → POut β) → POut β
  | .ok v, f => f v
  | .err m, _ => .err m
  | .spin, _ => .spin

instance : Monad POut where
  pure := .ok
  bind := POut.bind

/-- Outcome of the top-level `parse` (part_000 lines 92-109): the
source function has no `return` statement, so on normal loop exit it
returns `undefined` (`done` — the accumulated statements are NOT
returned); `failed` is a thrown error; `spin` means the loop never
terminates. -/
inductive ParseOutcome where
  | done
  | failed (msg : String)
  | spin
  deriving DecidableEq, Repr

/-- Token constants of part_001 used by the parser. -/
def SEMICOLON : Token := .op ";"

def LPAREN : Token := .lparenTk

def RPAREN : Token := .rparenTk

def COMMA : Token := .commaTk

def COLON : Token := .op ":"

def PERIOD : Token := .op "."

def MULT : Token := .op "*"

def PLUS : Token := .op "+"

def MINUS : Token := .op "-"

/-- Index loop of `nextMeaningfulToken` / `peekToken` (part_000
lines 673-682): advance while the token is an `instanceof
tk.Whitespace` (NOTE: `Cmmnt` is not a `Whitespace` subclass in
part_001, so comments are NOT skipped).  Each step advances the
index, so fuel `ts.length + 1` never runs out. -/
def skipWsAux (ts : List Token) : Nat → Nat → Nat
  | 0, i => i
  | fuel + 1, i =>
    if h : i < ts.length then
      if (ts.get ⟨i, h⟩).isWhitespace then skipWsAux ts fuel (i + 1) else i
    else i

/-- First index at or after `i` holding a non-whitespace token (or
the end of the sequence). -/
def skipWs (ts : List Token) (i : Nat) : Nat := skipWsAux ts (ts.length + 1) i

/-- `nextMeaningfulToken` (part_000 lines 673-677).  At end of input
the source returns `[Infinity, EOF]`; since every downstream use
treats any index `>= ts.length` alike, `Infinity` is modelled as
`ts.length` and `EOF` as `none`. -/
def nextMeaningfulToken (ts : List Token) (start : Nat) : Nat × Option Token :=
  let i := skipWs ts start
  match ts[i]? with
  | some t => (i + 1, some t)
  | none => (ts.length, none)

/-- `peekToken` (part_000 lines 678-682): like `nextMeaningfulToken`
but without returning an advanced index. -/
def peekToken (ts : List Token) (start : Nat) : Option Token :=
  ts[skipWs ts start]?

/-- The `value` of a token-or-EOF (the `Eof` class has
`value = 'EOF'`, part_000 lines 84-88). -/
def tokenDesc : Option Token → String
  | some t => t.value
  | none => "EOF"

/-- `getError` (part_000 line 685). -/
def getError (expected : String) (actual : Option Token) : String :=
  "Expected: " ++ expected ++ ", found: " ++ tokenDesc actual

/-- `unsupportedExprssion` (part_000 line 686; the source's
spelling). -/
def unsupportedExprssion (t : Option Token) : String :=
  "An unsupported expression found: " ++ tokenDesc t

/-- `equalToKeyword` (part_000 line 683): `instanceof tk.Word` and
exact value equality. -/
def equalToKeyword (t : Option Token) (k : String) : Bool :=
  match t with
  | some (.word v) => v == k
  | _ => false

/-- `inKeywords` (part_000 line 684). -/
def inKeywords (t : Option Token) (ks : List String) : Bool :=
  ks.any (fun k => equalToKeyword t k)

/-- `toIdent` (part_000 lines 687-688): part_001 has no
`DelimitedIdent` class (delimited identifiers lex to plain `Word`
tokens), so the delimiter branch is dead and the token's value is
used as the name. -/
def toIdent (w : String) : Ident := ⟨w, none⟩

/-- `parseKeyword` (part_000 lines 651-654). -/
def parseKeyword (ts : List Token) (start : Nat) (k : String) : Nat × Bool :=
  if equalToKeyword (peekToken ts start) k then
    ((nextMeaningfulToken ts start).1, true)
  else (start, false)

/-- Loop of `parseKeywords` (part_000 lines 655-662): structural on
the keyword list; the `idx < tokenSet.length` conjunct of the loop
condition makes the loop exit with `found = true` as soon as the
cursor reaches the end of the token sequence, even before all
keywords were checked. -/
def parseKeywordsGo (ts : List Token) (start : Nat) : Nat → List String → Nat × Bool
  | idx, [] => (idx, true)
  | idx, k :: ks =>
    if idx < ts.length then
      let (idx', found) := parseKeyword ts idx k
      if found then parseKeywordsGo ts start idx' ks else (start, false)
    else (idx, true)

/-- `parseKeywords` (part_000 lines 655-662). -/
def parseKeywords (ts : List Token) (start : Nat) (ks : List String) : Nat × Bool :=
  parseKeywordsGo ts start start ks

/-- `expectToken` (part_000 lines 663-667): value comparison against
the expected token constant. -/
def expectToken (ts : List Token) (start : Nat) (expected : Token) : POut Nat :=
  let (idx, token) := nextMeaningfulToken ts start
  match token with
  | some t => if t.value == expected.value then .ok idx else .err (getError expected.value token)
  | none => .err (getError expected.value token)

/-- `consumeToken` (part_000 lines 668-671): `some idx` when the next
meaningful token's value matches, `none` (JS `undefined`) otherwise. -/
def consumeToken (ts : List Token) (start : Nat) (consumed : Token) : Option Nat :=
  let (idx, token) := nextMeaningfulToken ts start
  match token with
  | some t => if t.value == consumed.value then some idx else none
  | none => none

/-- `expectKeyword` (part_000 lines 641-645). -/
def expectKeyword (ts : List Token) (start : Nat) (k : String) : POut Nat :=
  let token := peekToken ts start
  if equalToKeyword token k then .ok (nextMeaningfulToken ts start).1
  else .err (getError k token)

/-- `expectKeywords` (part_000 lines 646-650). -/
def expectKeywords (ts : List Token) (start : Nat) : List String → POut Nat
  | [] => .ok start
  | k :: ks => do
    let i ← expectKeyword ts start k
    expectKeywords ts i ks

/-- `parseIdentifier` (part_000 lines 636-640): `instanceof
tk.WordIdent`; part_001 lexes bare and delimited identifiers both to
`Word`, which plays the `WordIdent` role. -/
def parseIdentifier (ts : List Token) (start : Nat) : POut (Nat × Ident) :=
  let (idx, token) := nextMeaningfulToken ts start
  match token with
  | some (.word w) => .ok (idx, toIdent w)
  | _ => .err (getError "identifier" token)

/-- Loop of `parseObjectName` (part_000 lines 625-635): identifiers
chained on `:` (the source's colon separator).  Each iteration
consumes at least the identifier token, so fuel `ts.length + 1`
never runs out. -/
def parseObjectNameAux (ts : List Token) : Nat → Nat → POut (Nat × List Ident)
  | 0, _ => .spin
  | fuel + 1, start => do
    let (i1, ident) ← parseIdentifier ts start
    match consumeToken ts i1 COLON with
    | some i2 => do
      let (i3, ids) ← parseObjectNameAux ts fuel i2
      POut.ok (i3, ident :: ids)
    | none => POut.ok (i1, [ident])

/-- `parseObjectName` (part_000 lines 625-635). -/
def parseObjectName (ts : List Token) (start : Nat) : POut (Nat × ObjectName) := do
  let (i, ids) ← parseObjectNameAux ts (ts.length + 1) start
  POut.ok (i, ⟨ids⟩)

/-- `parseCommaSeparated` (part_000 lines 614-624): do-while chained
on commas.  Each iteration consumes at least the comma, and every
callback used by the source consumes at least one token on success,
so fuel `ts.length + 1` never runs out for terminating callbacks. -/
def parseCommaSeparated {α : Type} (ts : List Token)
    (cb : List Token → Nat → POut (Nat × α)) : Nat → Nat → POut (Nat × List α)
  | 0, _ => .spin
  | fuel + 1, start => do
    let (i1, v) ← cb ts start
    match consumeToken ts i1 COMMA with
    | some i2 => do
      let (i3, vs) ← parseCommaSeparated ts cb fuel i2
      POut.ok (i3, v :: vs)
    | none => POut.ok (i1, [v])

/-- `parseParenthesizedColumnList` (part_000 lines 603-613). -/
def parseParenthesizedColumnList (ts : List Token) (start : Nat)
    (isOptional : Bool) : POut (Nat × List Ident) :=
  match consumeToken ts start LPAREN with
  | some optIdx => do
    let (i1, idents) ← parseCommaSeparated ts parseIdentifier (ts.length + 1) optIdx
    let i2 ← expectToken ts i1 RPAREN
    POut.ok (i2, idents)
  | none =>
    if isOptional then .ok (start, [])
    else .err (getError "a list of columns in parentheses" (peekToken ts start))

/-- Loop of `skipToClosingParen` (part_000 lines 422-432): scan
meaningful tokens keeping a parenthesis depth that starts at 1;
every iteration consumes a token, so fuel `ts.length + 1` never runs
out. -/
def skipToClosingParenAux (ts : List Token) : Nat → Nat → Nat → POut Nat
  | 0, _, _ => .spin
  | fuel + 1, idx, counter =>
    let (idx', token) := nextMeaningfulToken ts idx
    match token with
    | none => .err (getError "')'" none)
    | some t =>
      let counter' :=
        if t = RPAREN then counter - 1
        else if t = LPAREN then counter + 1
        else counter
      if counter' = 0 then .ok idx' else skipToClosingParenAux ts fuel idx' counter'

/-- `skipToClosingParen` (part_000 lines 422-432): the cursor is
expected to stand immediately after an already-consumed `(`. -/
def skipToClosingParen {α : Type} (ts : List Token) (start : Nat) (dummy : α) :
    POut (Nat × α) := do
  let idx ← skipToClosingParenAux ts (ts.length + 1) start 1
  POut.ok (idx, dummy)

/-- JS `parseInt` on a numeric token's value (which always starts
with a digit): the value of the leading digit run. -/
def jsParseInt (s : String) : Nat :=
  (String.toNat? (String.mk (s.data.takeWhile (fun c => isDigitCh c)))).getD 0

/-- `parseLiteralUint` (part_000 lines 553-557). -/
def parseLiteralUint (ts : List Token) (start : Nat) : POut (Nat × Nat) :=
  let (idx, token) := nextMeaningfulToken ts start
  match token with
  | some (.num v) => .ok (idx, jsParseInt v)
  | _ => .err (getError "literal int" token)

/-- `parseLength` (part_000 lines 529-533). -/
def parseLength (ts : List Token) (start : Nat) : POut (Nat × Nat) := do
  let i1 ← expectToken ts start LPAREN
  let (i2, len) ← parseLiteralUint ts i1
  let i3 ← expectToken ts i2 RPAREN
  POut.ok (i3, len)

/-- `parseOptionalPrecisionScale` (part_000 lines 534-544; note the
source never consumes a closing `)` here). -/
def parseOptionalPrecisionScale (ts : List Token) (start : Nat) :
    POut (Nat × Option (Nat × Nat)) :=
  match consumeToken ts start LPAREN with
  | some optIdx => do
    let (i1, p) ← parseLiteralUint ts optIdx
    let i2 ← expectToken ts i1 COMMA
    let (i3, s) ← parseLiteralUint ts i2
    POut.ok (i3, some (p, s))
  | none => .ok (start, none)

/-- `parseOptionalPrecision` (part_000 lines 545-552). -/
def parseOptionalPrecision (ts : List Token) (start : Nat) :
    POut (Nat × Option Nat) :=
  match consumeToken ts start LPAREN with
  | some optIdx => do
    let (i1, p) ← parseLiteralUint ts optIdx
    let i2 ← expectToken ts i1 RPAREN
    POut.ok (i2, some p)
  | none => .ok (start, none)

/-- `parseDataType` (part_000 lines 497-528): dispatch on the
catalog shapes, then the hard-coded `DOUBLE [PRECISION]` and
`TIME`/`TIMESTAMP [WITH|WITHOUT TIME ZONE]` cases.  The
`['WITH','WITHOUT'].some(...)` of the source tries `WITH` first and
short-circuits, threading the index of the last attempt. -/
def parseDataType (ts : List Token) (start : Nat) : POut (Nat × DataType) :=
  let (idx, token) := nextMeaningfulToken ts start
  match token with
  | some (.word v) =>
    if inDataTypeNameL v then do
      let (i2, len) ← parseLength ts idx
      POut.ok (i2, mapperL v len)
    else if inDataTypeNameOptPS v then do
      let (i2, ps) ← parseOptionalPrecisionScale ts idx
      POut.ok (i2, mapperOptPS v ps)
    else if inDataTypeNameOptP v then do
      let (i2, p) ← parseOptionalPrecision ts idx
      POut.ok (i2, mapperOptP v p)
    else if equalToKeyword token "DOUBLE" then
      let (i2, found) := parseKeyword ts idx "PRECISION"
      .ok (i2, mapperNoArgs (if found then v ++ " PRECISION" else v))
    else if inKeywords token ["TIME", "TIMESTAMP"] then
      let (iW, fW) := parseKeyword ts idx "WITH"
      if fW then do
        let i3 ← expectKeywords ts iW ["TIME", "ZONE"]
        POut.ok (i3, mapperNoArgs v)
      else
        let (iWo, fWo) := parseKeyword ts iW "WITHOUT"
        if fWo then do
          let i3 ← expectKeywords ts iWo ["TIME", "ZONE"]
          POut.ok (i3, mapperNoArgs v)
        else .ok (iWo, mapperNoArgs v)
    else if inDataTypeNameNoArgs v then .ok (idx, mapperNoArgs v)
    else .err (getError "a data type name" token)
  | _ => .err (getError "a data type name" token)

/-- `tryParseDataType` (part_000 lines 489-496): a thrown
`ParseError` rewinds to the original position; every error raised
during parsing is a `ParseError`, so every error is caught. -/
def tryParseDataType (ts : List Token) (start : Nat) :
    POut (Nat × Option DataType) :=
  match parseDataType ts start with
  | .ok (idx, dt) => .ok (idx, some dt)
  | .err _ => .ok (start, none)
  | .spin => .spin

/-- `expectValue` (part_000 lines 466-483).  The
`tk.SingleQuotedString` branch reads `token.content`, a field
part_001's class does not define, yielding `undefined` (`none`). -/
def expectValue (ts : List Token) (start : Nat) : POut (Nat × Value) :=
  let (idx, token) := nextMeaningfulToken ts start
  match token with
  | some (.word v) =>
    if isOneOfKeywords v ["TRUE", "FALSE"] then .ok (idx, .boolV v)
    else if isKeyword v "NULL" then .ok (idx, .nullV)
    else .err (getError "a concrete value" token)
  | some (.num v) => .ok (idx, .numberV v)
  | some (.sqs _) => .ok (idx, .singleQuotedStringV none)
  | some (.nsl content pfx) => .ok (idx, .nationalStringLiteralV content pfx)
  | some (.hxl content pfx) => .ok (idx, .hexStringLiteralV content pfx)
  | _ => .err (getError "a value" token)

/-- `expectLiteralString` (part_000 lines 484-488): returns
`token.content`, which part_001's string token does not define
(`undefined`, modelled `none`). -/
def expectLiteralString (ts : List Token) (start : Nat) :
    POut (Nat × Option String) :=
  let (idx, token) := nextMeaningfulToken ts start
  match token with
  | some (.sqs _) => .ok (idx, none)
  | _ => .err (getError "literal string" token)

/-! ## Expression engine (part_000 lines 289-624) -/

/-- The `PRECEDENCE` table (part_000 lines 289-303). -/
def DEFAULT_0 : Nat := 0

def OR_5 : Nat := 5

def AND_10 : Nat := 10

def UNARY_NOT_15 : Nat := 15

def IS_17 : Nat := 17

def BETWEEN_20 : Nat := 20

def PIPE_21 : Nat := 21

def CARET_22 : Nat := 22

def AMPERSAND_23 : Nat := 23

def PLUS_MINUS_30 : Nat := 30

def MULT_40 : Nat := 40

def DOUBLE_COLON_50 : Nat := 50

/-- `instanceof tk.Operator`. -/
def Token.isOperatorTk : Token → Bool
  | .op _ => true
  | _ => false

/-- Operator-token part of `getNextPrecedence` (part_000 lines
329-337): identity comparison against the `Operator` constants of
part_001.  `tk.PIPE` is referenced by the parser but part_001
declares no such constant (a lone `|` lexes to `Other`), so that
comparison can never succeed; it is kept for structure on the
`op "|"` value, which the tokenizer never produces. -/
def opPrec (token : Option Token) : Nat :=
  match token with
  | some (.op v) =>
    if v ∈ ["=", "<", "<=", "!=", "<>", ">", ">="] then BETWEEN_20
    else if v = "|" then PIPE_21
    else if v ∈ ["^", "#", ">>", "<<"] then CARET_22
    else if v = "&" then AMPERSAND_23
    else if v ∈ ["+", "-"] then PLUS_MINUS_30
    else if v ∈ ["*", "%", "/", "||"] then MULT_40
    else if v ∈ ["::", "!"] then DOUBLE_COLON_50
    else DEFAULT_0
  | _ => DEFAULT_0

/-- `getNextPrecedence` (part_000 lines 315-339): keyword
precedences on `Word` tokens (with one token of lookahead after
`NOT`), then the operator table. -/
def getNextPrecedence (ts : List Token) (start : Nat) : Nat :=
  let (idx, token) := nextMeaningfulToken ts start
  match token with
  | some (.word v) =>
    if isKeyword v "OR" then OR_5
    else if isKeyword v "AND" then AND_10
    else if isKeyword v "NOT" then
      let (_, t2) := nextMeaningfulToken ts idx
      if inKeywords t2 ["IN", "BETWEEN", "LIKE"] then BETWEEN_20 else DEFAULT_0
    else if inKeywords token ["IN", "BETWEEN", "LIKE"] then BETWEEN_20
    else if isKeyword v "IS" then IS_17
    else opPrec token
  | _ => opPrec token

/-- Shape of the recursive `parseExpr` threaded through the
expression-engine helpers: token sequence, start index, minimum
precedence. -/
abbrev ExprP := List Token → Nat → Nat → POut (Nat × Expr)

/-- `parseCast` (part_000 lines 433-441). -/
def parseCast (pe : ExprP) (ts : List Token) (start : Nat) : POut (Nat × Expr) := do
  let i1 ← expectToken ts start LPAREN
  let (i2, e) ← pe ts i1 DEFAULT_0
  let i3 ← expectKeyword ts i2 "AS"
  let (i4, dt) ← parseDataType ts i3
  let i5 ← expectToken ts i4 RPAREN
  POut.ok (i5, .cast e dt)

/-- Loop of `parseCase` (part_000 lines 452-459): the source expects
the keyword `WHEN` between a condition and its result (where `THEN`
would be) and chains further arms on `WHEN`.  Every iteration
consumes tokens, so fuel `ts.length + 1` never runs out. -/
def parseCaseLoop (pe : ExprP) (ts : List Token) :
    Nat → Nat → List Expr → List Expr → POut (Nat × (List Expr × List Expr))
  | 0, _, _, _ => .spin
  | fuel + 1, idx, conds, ress => do
    let (i1, c) ← pe ts idx DEFAULT_0
    let i2 ← expectKeyword ts i1 "WHEN"
    let (i3, r) ← pe ts i2 DEFAULT_0
    let (i4, found) := parseKeyword ts i3 "WHEN"
    if found then parseCaseLoop pe ts fuel i4 (conds ++ [c]) (ress ++ [r])
    else POut.ok (i4, (conds ++ [c], ress ++ [r]))

/-- `parseCase` (part_000 lines 442-465).  Note two quirks kept from
the source: the `ELSE` branch parses the result expression without
threading its end index (line 462 drops the returned position), and
result expressions are separated from conditions by `WHEN`. -/
def parseCase (pe : ExprP) (ts : List Token) (start : Nat) : POut (Nat × Expr) := do
  let (i1, found) := parseKeyword ts start "WHEN"
  let operandStep : POut (Nat × Option Expr) :=
    if found then .ok (i1, none)
    else do
      let (i2, op) ← pe ts i1 DEFAULT_0
      let i3 ← expectKeyword ts i2 "WHEN"
      POut.ok (i3, some op)
  let (i4, operand) ← operandStep
  let (i5, cr) ← parseCaseLoop pe ts (ts.length + 1) i4 [] []
  let (conds, ress) := cr
  let (i6, fElse) := parseKeyword ts i5 "ELSE"
  let elseStep : POut (Nat × Option Expr) :=
    if fElse then do
      let (_, e) ← pe ts i6 DEFAULT_0
      POut.ok (i6, some e)
    else .ok (i6, none)
  let (i7, elseResult) ← elseStep
  let i8 ← expectKeyword ts i7 "END"
  POut.ok (i8, .caseE operand conds ress elseResult)

/-- `parseBetween` (part_000 lines 587-593): both bounds are parsed
with `BETWEEN`'s own precedence. -/
def parseBetween (pe : ExprP) (ts : List Token) (start : Nat) (e : Expr)
    (negated : Bool) : POut (Nat × Expr) := do
  let (i1, low) ← pe ts start BETWEEN_20
  let i2 ← expectKeyword ts i1 "AND"
  let (i3, high) ← pe ts i2 BETWEEN_20
  POut.ok (i3, .between e negated low high)

/-- `parseIn` (part_000 lines 594-602).  The subquery check calls
`parseKeywords` with the list `['SELECT','WITH']`, which matches only
the two keywords in sequence. -/
def parseIn (pe : ExprP) (ts : List Token) (start : Nat) (e : Expr)
    (negated : Bool) : POut (Nat × Expr) := do
  let i1 ← expectToken ts start LPAREN
  let (i2, found) := parseKeywords ts i1 ["SELECT", "WITH"]
  if found then .err (getError "columns (subquery is not supported)" (peekToken ts i2))
  else do
    let (i3, exs) ← parseCommaSeparated ts (fun t i => pe t i DEFAULT_0) (ts.length + 1) i2
    let i4 ← expectToken ts i3 RPAREN
    POut.ok (i4, .inList e exs negated)

/-- `parseInfix` (part_000 lines 559-586).  The generic
operator/`AND`/`OR`/`LIKE` branch parses its right-hand side with the
DEFAULT minimum precedence (the source passes no precedence
argument); only the `NOT LIKE` branch passes the incoming
precedence through. -/
def parseInfixExpr (pe : ExprP) (ts : List Token) (start : Nat) (e : Expr)
    (prec : Nat) : POut (Nat × Expr) :=
  let (idx, token) := nextMeaningfulToken ts start
  match token with
  | none => .err "unexpected EOF while parsing infix"
  | some t =>
    if t.isOperatorTk || inKeywords token ["AND", "OR", "LIKE"] then do
      let (i2, right) ← pe ts idx DEFAULT_0
      POut.ok (i2, .binaryOp e ⟨t.value⟩ right)
    else
      let (i3, fNL) := parseKeywords ts idx ["NOT", "LIKE"]
      if fNL then do
        let (i4, right) ← pe ts i3 prec
        POut.ok (i4, .binaryOp e ⟨"NOT LIKE"⟩ right)
      else if equalToKeyword token "IS" then
        let (i5, f5) := parseKeyword ts i3 "NULL"
        if f5 then .ok (i5, .isNull e)
        else
          let (i6, f6) := parseKeywords ts i5 ["NOT", "NULL"]
          if f6 then .ok (i6, .isNotNull e)
          else .err ("No infix parser for token " ++ t.value)
      else if inKeywords token ["NOT", "IN", "BETWEEN"] then
        let negated := equalToKeyword token "NOT"
        let (i7, f7) := parseKeyword ts i3 "IN"
        if f7 then parseIn pe ts i7 e negated
        else
          let (i8, f8) := parseKeyword ts i7 "BETWEEN"
          if f8 then parseBetween pe ts i8 e negated
          else .err (getError "IN or BETWEEN after NOT" (peekToken ts i8))
      else .err ("No infix parser for token " ++ t.value)

/-- Tail of `parsePrefix` after the identifier block rebinds `token`
to the peeked one (part_000 lines 402-413): wildcard, unary sign,
literal value, parenthesized subquery skip, or the final
"an expression" error. -/
def genericPrefix (pe : ExprP) (ts : List Token) (prevIdx i0 : Nat)
    (token : Option Token) : POut (Nat × Expr) :=
  if token = some MULT then .ok (i0, .wildcard)
  else if token = some PLUS || token = some MINUS then do
    let (j, e) ← pe ts i0 PLUS_MINUS_30
    POut.ok (j, .unaryOp ⟨tokenDesc token⟩ e)
  else
    match token with
    | some (.num _) | some (.sqs _) | some (.nsl _ _) | some (.hxl _ _) => do
      let (j, v) ← expectValue ts prevIdx
      POut.ok (j, .valueE v)
    | _ =>
      if token = some LPAREN then skipToClosingParen ts i0 Expr.subquery
      else .err (getError "an expression" token)

/-- Identifier branch of `parsePrefix` (part_000 lines 374-401).
When the peeked token after the word is `(` or `.`, the source
enters the qualified-name/function block: a `.` must be followed by
`*` (an identifier is pushed and then the loop unconditionally
throws, line 389, so the chain can never extend), and a `(` causes a
balanced skip that is started from BEFORE the consumed `(` (the
source passes `idx`, not the consumed position).  Only inside this
branch can a plain `Identifier` be returned; otherwise control falls
through to `genericPrefix` with the REBOUND (peeked) token. -/
def wordPrefix (pe : ExprP) (ts : List Token) (prevIdx i0 : Nat) (w : String) :
    POut (Nat × Expr) :=
  let token2 := peekToken ts i0
  if token2 = some LPAREN || token2 = some PERIOD then
    match consumeToken ts i0 PERIOD with
    | some optIdx =>
      let (i1, t1) := nextMeaningfulToken ts optIdx
      match t1 with
      | some (.word _) => .err (getError "an identifier or a '*' after '.'" t1)
      | _ =>
        if t1 = some MULT then .ok (i1, .qualifiedWildcard [toIdent w])
        else .err (getError "an identifier or a '*' after '.'" t1)
    | none =>
      match consumeToken ts i0 LPAREN with
      | some _ => skipToClosingParen ts i0 Expr.functionE
      | none => .ok (i0, .identifier (toIdent w))
  else genericPrefix pe ts prevIdx i0 token2

/-- Core of `parsePrefix` (the immediately-invoked expression of
part_000 lines 349-414): keyword dispatch on a `Word` token, then
the identifier block, then the generic token checks. -/
def prefixCore (pe : ExprP) (ts : List Token) (prevIdx i0 : Nat)
    (token : Option Token) : POut (Nat × Expr) :=
  match token with
  | some (.word w) =>
    if isOneOfKeywords w ["TRUE", "FALSE", "NULL"] then do
      let (j, v) ← expectValue ts prevIdx
      POut.ok (j, .valueE v)
    else if isKeyword w "CASE" then parseCase pe ts i0
    else if isKeyword w "CAST" then parseCast pe ts i0
    else if isKeyword w "EXISTS" then do
      let j ← expectToken ts i0 LPAREN
      skipToClosingParen ts j Expr.existsE
    else if isKeyword w "EXTRACT" then do
      let j ← expectToken ts i0 LPAREN
      skipToClosingParen ts j Expr.extractE
    else if isKeyword w "INTERVAL" then .err (unsupportedExprssion (peekToken ts i0))
    else if isKeyword w "LISTAGG" then do
      let j ← expectToken ts i0 LPAREN
      skipToClosingParen ts j Expr.listAgg
    else if isKeyword w "NOT" then do
      let (j, e) ← pe ts i0 DEFAULT_0
      POut.ok (j, .unaryOp ⟨"NOT"⟩ e)
    else wordPrefix pe ts prevIdx i0 w
  | _ => genericPrefix pe ts prevIdx i0 token

/-- `parsePrefix` (part_000 lines 340-421): speculative data-type
parse for a typed-string literal first (on success the literal
string is expected at `start` again, as in the source), then the
prefix core, then the optional `COLLATE` suffix. -/
def parsePrefixExpr (pe : ExprP) (ts : List Token) (start : Nat) :
    POut (Nat × Expr) := do
  let (idxA, odt) ← tryParseDataType ts start
  match odt with
  | some dt => do
    let (idxB, value) ← expectLiteralString ts start
    POut.ok (idxB, .typedString dt value)
  | none =>
    let prevIdx := idxA
    let (i0, token) := nextMeaningfulToken ts idxA
    do
      let (i1, e) ← prefixCore pe ts prevIdx i0 token
      let (i2, fCol) := parseKeyword ts i1 "COLLATE"
      if fCol then do
        let (i3, coll) ← parseObjectName ts i2
        POut.ok (i3, .collate e coll)
      else POut.ok (i2, e)

/-- The precedence-climbing loop of `parseExpr` (part_000 lines
308-312): consume an infix while the next precedence is strictly
greater than the minimum.  Every iteration consumes at least one
token, so fuel `ts.length + 2` never runs out. -/
def exprClimb (pe : ExprP) (ts : List Token) :
    Nat → Nat → Expr → Nat → POut (Nat × Expr)
  | 0, _, _, _ => .spin
  | fuel + 1, idx, e, prec =>
    let np := getNextPrecedence ts idx
    if np ≤ prec then .ok (idx, e)
    else do
      let (i2, e2) ← parseInfixExpr pe ts idx e np
      exprClimb pe ts fuel i2 e2 prec

/-- `parseExpr` (part_000 lines 305-314), fuel-indexed: the fuel
bounds the depth of the `parseExpr`/`parsePrefix`/`parseInfix`
recursion.  Each recursive entry happens after at least one token
has been consumed, so the fuel chosen by the `parseExpr` wrapper is
never exhausted on terminating runs. -/
def parseExprF : Nat → List Token → Nat → Nat → POut (Nat × Expr)
  | 0, _, _, _ => .spin
  | fuel + 1, ts, start, prec => do
    let (i1, e) ← parsePrefixExpr (parseExprF fuel) ts start
    exprClimb (parseExprF fuel) ts (ts.length + 2) i1 e prec

/-- Recursion bound for the expression engine: generous, since each
nested `parseExpr` entry strictly consumes input. -/
def exprFuel (ts : List Token) : Nat := (ts.length + 2) * (ts.length + 2)

/-- `parseExpr` with the source's default minimum precedence. -/
def parseExpr (ts : List Token) (start : Nat) : POut (Nat × Expr) :=
  parseExprF (exprFuel ts) ts start DEFAULT_0


/-! ## Statement-level parser (part_000 lines 92-288) -/

/-- `parseReferencialAction` (part_000 lines 246-260). -/
def parseReferencialAction (ts : List Token) (start : Nat) :
    POut (Nat × ReferencialAction) :=
  let (i1, f1) := parseKeyword ts start "RESTRICT"
  if f1 then .ok (i1, ⟨"RESTRICT"⟩)
  else
    let (i2, f2) := parseKeyword ts i1 "CASCADE"
    if f2 then .ok (i2, ⟨"CASCADE"⟩)
    else
      let (i3, f3) := parseKeywords ts i2 ["SET", "NULL"]
      if f3 then .ok (i3, ⟨"SET NULL"⟩)
      else
        let (i4, f4) := parseKeywords ts i3 ["NO", "ACTION"]
        if f4 then .ok (i4, ⟨"NO ACTION"⟩)
        else
          let (i5, f5) := parseKeywords ts i4 ["SET", "DEFAULT"]
          if f5 then .ok (i5, ⟨"SET DEFAULT"⟩)
          else .err (getError "one of RESTRICT, CASCADE, SET NULL, NO ACTION or SET DEFAULT"
            (peekToken ts i5))

/-- The `ON DELETE` / `ON UPDATE` clause loop of `REFERENCES`
(part_000 lines 220-230): `for(;;)` that exits only once BOTH
clauses are set.  When the expected clause keywords are not next,
the iteration changes nothing and the source loops forever, so the
fuel is kept exposed (`spin` = that non-termination). -/
def refLoop (ts : List Token) :
    Nat → Nat → Option ReferencialAction → Option ReferencialAction →
    POut (Nat × (Option ReferencialAction × Option ReferencialAction))
  | 0, _, _, _ => .spin
  | fuel + 1, idx, onDelete, onUpdate =>
    match onDelete with
    | none =>
      let (i1, found) := parseKeywords ts idx ["ON", "DELETE"]
      if found then do
        let (i2, act) ← parseReferencialAction ts i1
        refLoop ts fuel i2 (some act) onUpdate
      else refLoop ts fuel i1 none onUpdate
    | some _ =>
      match onUpdate with
      | none =>
        let (i1, found) := parseKeywords ts idx ["ON", "UPDATE"]
        if found then do
          let (i2, act) ← parseReferencialAction ts i1
          refLoop ts fuel i2 onDelete (some act)
        else refLoop ts fuel i1 onDelete none
      | some _ => .ok (idx, (onDelete, onUpdate))

/-- `parseOptionalColumnOption` (part_000 lines 199-245).  `refFuel`
feeds only the `ON DELETE`/`ON UPDATE` loop; a terminating run of
that loop changes state at most twice, so any `refFuel ≥ 3` is
equivalent for terminating runs. -/
def parseOptionalColumnOption (refFuel : Nat) (ts : List Token) (start : Nat) :
    POut (Nat × Option ColumnOption) :=
  let (i1, f1) := parseKeywords ts start ["NOT", "NULL"]
  if f1 then .ok (i1, some .notNull)
  else
    let (i2, f2) := parseKeyword ts i1 "NULL"
    if f2 then .ok (i2, some .nullOpt)
    else
      let (i3, f3) := parseKeyword ts i2 "DEFAULT"
      if f3 then do
        let (i4, e) ← parseExpr ts i3
        POut.ok (i4, some (.defaultOpt e))
      else
        let (i5, f5) := parseKeywords ts i3 ["PRIMARY", "KEY"]
        if f5 then .ok (i5, some (.uniqueOpt true))
        else
          let (i6, f6) := parseKeyword ts i5 "UNIQUE"
          if f6 then .ok (i6, some (.uniqueOpt false))
          else
            let (i7, f7) := parseKeyword ts i6 "REFERENCES"
            if f7 then do
              let (i8, foreignTable) ← parseObjectName ts i7
              let (i9, referredColumns) ← parseParenthesizedColumnList ts i8 true
              let (i10, acts) ← refLoop ts refFuel i9 none none
              let (onDelete, onUpdate) := acts
              POut.ok (i10, some (.foreignOpt foreignTable referredColumns onDelete onUpdate))
            else
              let (i11, f11) := parseKeyword ts i7 "CHECK"
              if f11 then do
                let i12 ← expectToken ts i11 LPAREN
                let (i13, e) ← parseExpr ts i12
                let i14 ← expectToken ts i13 RPAREN
                POut.ok (i14, some (.checkOpt e))
              else
                let (i15, f15) := parseKeyword ts i11 "AUTO_INCREMENT"
                if f15 then .ok (i15, some (.diarectSpecific "AUTO_INCREMENT"))
                else
                  let (i16, f16) := parseKeyword ts i15 "AUTOINCREMENT"
                  if f16 then .ok (i16, some (.diarectSpecific "AUTOINCREMENT"))
                  else .ok (i16, none)

/-- `parseOptionalTableConstraint` (part_000 lines 261-288). -/
def parseOptionalTableConstraint (ts : List Token) (start : Nat) :
    POut (Nat × Option TableConstraint) :=
  let (i1, found) := parseKeyword ts start "CONSTRAINT"
  if !found then .ok (start, none)
  else do
    let (i2, name) ← parseIdentifier ts i1
    let (i3, token) := nextMeaningfulToken ts i2
    match token with
    | some _ =>
      if inKeywords token ["PRIMARY", "UNIQUE"] then
        let isPrimary := equalToKeyword token "PRIMARY"
        let keyStep : POut Nat :=
          if isPrimary then expectKeyword ts i3 "KEY" else .ok i3
        do
          let i4 ← keyStep
          let (i5, columns) ← parseParenthesizedColumnList ts i4 false
          POut.ok (i5, some (.unique (some name) columns isPrimary))
      else if equalToKeyword token "FOREIGN" then do
        let i4 ← expectKeyword ts i3 "KEY"
        let (i5, columns) ← parseParenthesizedColumnList ts i4 false
        let i6 ← expectKeyword ts i5 "REFERENCES"
        let (i7, foreignTable) ← parseObjectName ts i6
        let (i8, referredColumns) ← parseParenthesizedColumnList ts i7 false
        POut.ok (i8, some (.foreignKey (some name) columns foreignTable referredColumns))
      else if equalToKeyword token "CHECK" then do
        let i4 ← expectToken ts i3 LPAREN
        let (i5, e) ← parseExpr ts i4
        let i6 ← expectToken ts i5 RPAREN
        POut.ok (i6, some (.check (some name) e))
      else .err (getError "PRIMARY, UNIQUE, FOREIGN, or CHECK" (peekToken ts i3))
    | none => .err (getError "PRIMARY, UNIQUE, FOREIGN, or CHECK" (peekToken ts i3))

/-- The inline-constraint loop of `parseColumnDef` (part_000 lines
184-196).  A continuing iteration consumes at least one keyword
token, so fuel `ts.length + 1` never runs out for terminating
option parses. -/
def columnOptionsLoop (ts : List Token) :
    Nat → Nat → List ColumnOptionDef → POut (Nat × List ColumnOptionDef)
  | 0, _, _ => .spin
  | fuel + 1, idx, opts =>
    let (i1, fc) := parseKeyword ts idx "CONSTRAINT"
    if fc then do
      let (i2, name) ← parseIdentifier ts i1
      let (i3, opt) ← parseOptionalColumnOption (ts.length + 4) ts i2
      match opt with
      | some o => columnOptionsLoop ts fuel i3 (opts ++ [⟨some name, o⟩])
      | none => .err (getError "constraint details after CONSTRAINT <name>" (peekToken ts i3))
    else do
      let (i2, opt) ← parseOptionalColumnOption (ts.length + 4) ts i1
      match opt with
      | some o => columnOptionsLoop ts fuel i2 (opts ++ [⟨none, o⟩])
      | none => POut.ok (i2, opts)

/-- `parseColumnDef` (part_000 lines 176-198). -/
def parseColumnDef (ts : List Token) (start : Nat) : POut (Nat × ColumnDef) := do
  let (i1, name) ← parseIdentifier ts start
  let (i2, dataType) ← parseDataType ts i1
  let (i3, fCol) := parseKeyword ts i2 "COLLATE"
  let collStep : POut (Nat × Option ObjectName) :=
    if fCol then do
      let (i4, coll) ← parseObjectName ts i3
      POut.ok (i4, some coll)
    else .ok (i3, none)
  let (i5, collation) ← collStep
  let (i6, options) ← columnOptionsLoop ts (ts.length + 1) i5 []
  POut.ok (i6, ⟨name, dataType, collation, options⟩)

/-- The element loop of `parseColumns` (part_000 lines 159-173).
Kept exactly as the source has it: every iteration calls
`parseOptionalTableConstraint` at `start` (not at the running
index), the peeked token decides between a column definition and
the "column name or constraint definition" error, and the do-while
CONTINUES when a `)` was consumed and exits when only a `,` was. -/
def columnsLoop (ts : List Token) (start : Nat) :
    Nat → List ColumnDef → List TableConstraint →
    POut (Nat × (List ColumnDef × List TableConstraint))
  | 0, _, _ => .spin
  | fuel + 1, columns, constraints => do
    let (i1, optCons) ← parseOptionalTableConstraint ts start
    let constraints' :=
      match optCons with
      | some c => constraints ++ [c]
      | none => constraints
    let token := peekToken ts i1
    match token with
    | some (.word _) => do
      let (i2, cd) ← parseColumnDef ts i1
      let columns' := columns ++ [cd]
      let optIdxComma := consumeToken ts i2 COMMA
      let optIdxRParen := consumeToken ts (optIdxComma.getD i2) RPAREN
      if optIdxComma = none && optIdxRParen = none then
        .err (getError "',' or ')' after column definition" token)
      else
        let idx3 := optIdxRParen.getD (optIdxComma.getD i2)
        match optIdxRParen with
        | some _ => columnsLoop ts start fuel columns' constraints'
        | none => POut.ok (idx3, (columns', constraints'))
    | _ => .err (getError "column name or constraint definition" token)

/-- `parseColumns` (part_000 lines 150-175).  The opening `(` is
checked with `consumeToken` but its returned position is DISCARDED
(the source never assigns it), so the loop below starts from
`start`, still in front of the `(`. -/
def parseColumns (ts : List Token) (start : Nat) :
    POut (Nat × (List ColumnDef × List TableConstraint)) :=
  match consumeToken ts start LPAREN with
  | none => .ok (start, ([], []))
  | some _ =>
    match consumeToken ts start RPAREN with
    | some i => .ok (i, ([], []))
    | none => columnsLoop ts start (ts.length + 1) [] []

/-- `parseCreateTableStatement` (part_000 lines 120-148).  Returns
the bare statement: the source's function type is
`CreateTableStatement`, not a `[position, value]` pair, so the end
position is discarded. -/
def parseCreateTableStatement (ts : List Token) (start : Nat) (orReplace : Bool) :
    POut CreateTableStatement := do
  let (i1, ifNotExists) := parseKeywords ts start ["IF", "NOT", "EXISTS"]
  let (i2, tableName) ← parseObjectName ts i1
  let (i3, cc) ← parseColumns ts i2
  let (columns, constraints) := cc
  let (i4, withoutRowid) := parseKeywords ts i3 ["WITHOUT", "ROWID"]
  let (i5, withOptionsFound) := parseKeyword ts i4 "WITH"
  let withStep : POut (Nat × List SqlOption) :=
    if withOptionsFound then do
      let i6 ← expectToken ts i5 LPAREN
      let (i7, withOptions) ← skipToClosingParen ts i6 [SqlOption.mk]
      let i8 ← expectToken ts i7 RPAREN
      POut.ok (i8, withOptions)
    else .ok (i5, [])
  let (i9, withOptions) ← withStep
  let (i10, asFound) := parseKeyword ts i9 "AS"
  if asFound then .err (unsupportedExprssion (peekToken ts i10))
  else
    POut.ok ⟨tableName, columns, constraints, withOptions, orReplace,
      ifNotExists, withoutRowid, false, none, none, none⟩

/-- `parseCreateStatement` (part_000 lines 110-119): `CREATE`,
optional `OR REPLACE`, then the table statement.  No `TABLE` keyword
is ever consumed. -/
def parseCreateStatement (ts : List Token) (start : Nat) :
    POut CreateTableStatement :=
  let (i1, found) := parseKeyword ts start "CREATE"
  if !found then .err (getError "a create statement" (peekToken ts i1))
  else
    let (i2, orReplace) := parseKeywords ts i1 ["OR", "REPLACE"]
    parseCreateTableStatement ts i2 orReplace

/-- The inner empty-statement loop of `parse` (part_000 lines
98-103): consume `;` tokens, clearing the
`expectingStatementDelimiter` flag on each.  Each iteration
consumes a token, so fuel `ts.length + 1` never runs out. -/
def skipSemis (ts : List Token) : Nat → Nat → Bool → Nat × Bool
  | 0, idx, expecting => (idx, expecting)
  | fuel + 1, idx, expecting =>
    match consumeToken ts idx SEMICOLON with
    | some i2 => skipSemis ts fuel i2 false
    | none => (idx, expecting)

/-- The statement loop of `parse` (part_000 lines 97-108): skip
terminators, stop at end of input (returning `undefined`: the
accumulated `statements` array is never returned), fail when a
delimiter was expected, parse one statement and push it — WITHOUT
ever advancing `idx` past the parsed statement (`parseCreateStatement`
returns no position).  The loop state therefore repeats and the
source loops forever whenever a statement parses successfully, so
the fuel is kept exposed (`spin` = that non-termination).
`expectingStatementDelimiter` is never set to `true` by the source,
so the `throw new Error()` (message `""`) is dead code. -/
def parseLoop (ts : List Token) :
    Nat → Nat → Bool → List CreateTableStatement → ParseOutcome
  | 0, _, _, _ => .spin
  | fuel + 1, idx, expecting, statements =>
    let (i1, expecting') := skipSemis ts (ts.length + 1) idx expecting
    if ts.length ≤ i1 then .done
    else if expecting' then .failed ""
    else
      match parseCreateStatement ts i1 with
      | .err m => .failed m
      | .spin => .spin
      | .ok stmt => parseLoop ts fuel i1 expecting' (statements ++ [stmt])

/-- `parse` (part_000 lines 92-109): tokenize, then run the
statement loop from index 0.  A `TokenizeError` propagates; on
normal termination the source returns `undefined` (`.done`). -/
def parse (fuel : Nat) (src : String) : Except TokErr ParseOutcome :=
  (tokenize src).map (fun ts => parseLoop ts fuel 0 false [])


/-! ## Concrete fixtures used in the theorems -/

/-- Characters the scanner dispatch recognizes (part_001 lines
150-154 together with the keys of the `rule` object, lines 74-121);
any other character falls to the catch-all `Other` token. -/
def hasRule (c : Char) : Bool :=
  c = 'N' || c = 'X' || c = 'x' || isIdentifierStart c
    || isDelimiteddIdentifierStart c || isDigitCh c
    || [' ', '\t', '\n', '\r', '\'', '(', ')', ',', '-', '/', '+', '*', '%', '|',
        '=', '.', '!', '<', '>', ':', ';', '\\', '[', ']', '&', '^', '\x7b',
        '\x7d', '~'].contains c

/-- Token sequence of the column-option fragment
`REFERENCES u (c) NOT NULL` (11 tokens; the referred-column list
ends at index 7). -/
def refTs : List Token := toks "REFERENCES u (c) NOT NULL"

/-- The statement `parseCreateStatement` produces for the source
`CREATE t;` (the table name is `t`; nothing else is present). -/
def stmtCREATEt : CreateTableStatement :=
  ⟨⟨[⟨"t", none⟩]⟩, [], [], [], false, false, false, false, none, none, none⟩


/-! ## Supporting lemmas for the tokenizer theorems -/

/-- The scanning index loop never moves backwards. -/
theorem takeWhileIdx_le (adv : Char → Nat → List Char → Nat) (chars : List Char) :
    ∀ (fuel i : Nat), i ≤ takeWhileIdx adv chars fuel i := by
  intro fuel
  induction fuel with
  | zero => intro i; exact Nat.le_refl i
  | succ f ih =>
    intro i
    show i ≤ (if h : i < chars.length then
        (if adv (chars.get ⟨i, h⟩) i chars = 0 then i
         else takeWhileIdx adv chars f (i + adv (chars.get ⟨i, h⟩) i chars))
      else i)
    split
    · split
      · exact Nat.le_refl i
      · exact Nat.le_trans (Nat.le_add_right i _) (ih _)
    · exact Nat.le_refl i

/-- Taking at least one element of a non-empty list is non-empty. -/
theorem take_ne_nil {α : Type} (l : List α) (k : Nat) (hl : l ≠ []) (hk : 1 ≤ k) :
    l.take k ≠ [] := by
  cases l with
  | nil => exact absurd rfl hl
  | cons a l =>
    cases k with
    | zero => omega
    | succ k => simp

/-- `takeWhile` returns a non-empty prefix of its input (its result
is literally a `slice(0, ...)` with a positive bound). -/
theorem takeWhile_spec {chars : List Char} {k : Nat}
    {adv : Char → Nat → List Char → Nat} (hk : 1 ≤ k) (hch : chars ≠ []) :
    (takeWhile chars k adv).data <+: chars ∧ (takeWhile chars k adv).data ≠ [] := by
  have hle := takeWhileIdx_le adv chars (chars.length + 1) k
  constructor
  · exact List.take_prefix _ _
  · apply take_ne_nil chars _ hch
    have hlen : 1 ≤ chars.length := by
      cases chars with
      | nil => exact absurd rfl hch
      | cons a l => simp
    omega

/-- A successful `takeWhileOrError` also returns a non-empty prefix. -/
theorem takeWhileOrError_ok_spec {chars : List Char} {k : Nat}
    {adv : Char → Nat → List Char → Nat} {msg s : String}
    (h : takeWhileOrError chars k adv msg = .ok s) (hk : 1 ≤ k)
    (hch : chars ≠ []) : s.data <+: chars ∧ s.data ≠ [] := by
  have hle := takeWhileIdx_le adv chars (chars.length + 1) k
  simp only [takeWhileOrError] at h
  split at h
  · exact absurd h (by simp)
  · injection h with h
    subst h
    constructor
    · exact List.take_prefix _ _
    · apply take_ne_nil chars _ hch
      omega

/-- A failing `takeWhileOrError` throws exactly its own message. -/
theorem takeWhileOrError_err {chars : List Char} {k : Nat}
    {adv : Char → Nat → List Char → Nat} {msg m : String}
    (h : takeWhileOrError chars k adv msg = .error m) : m = msg := by
  simp only [takeWhileOrError] at h
  split at h
  · injection h with h; exact h.symm
  · exact absurd h (by simp)

/-- Destructor for a successful `Except.map` over a scan result. -/
theorem map_ok {f : String → Token} {X : Except String String} {t : Token}
    (h : X.map f = .ok t) : ∃ s, X = .ok s ∧ t = f s := by
  cases X with
  | error e => exact absurd h (by simp [Except.map])
  | ok s =>
    refine ⟨s, rfl, ?_⟩
    have h2 : Except.ok (f s) = Except.ok t := h
    injection h2 with h3
    exact h3.symm

/-- Destructor for a failing `Except.map` over a scan result. -/
theorem map_err {f : String → Token} {X : Except String String} {m : String}
    (h : X.map f = .error m) : X = .error m := by
  cases X with
  | error e =>
    have h2 : (Except.error e : Except String Token) = .error m := h
    injection h2 with h3
    rw [h3]
  | ok s => exact absurd h (by simp [Except.map])

/-- A one-character lookahead hit pins down the head of the rest. -/
theorem prefix_two (d : Char) {c : Char} {rest : List Char}
    (h : getC (c :: rest) 1 = some d) : ∃ r, rest = d :: r := by
  cases rest with
  | nil => exact absurd h (by simp [getC])
  | cons e r =>
    refine ⟨r, ?_⟩
    have h2 : e = d := by simpa [getC] using h
    rw [h2]

/-- Gluing a one-character prefix onto a scanned string keeps the
prefix property. -/
theorem prefix_string_tok {c : Char} {rest : List Char} {s : String}
    (hp : s.data <+: rest) :
    (String.mk [c] ++ s).data <+: (c :: rest) ∧ (String.mk [c] ++ s).data ≠ [] := by
  obtain ⟨u, hu⟩ := hp
  constructor
  · exact ⟨u, by show c :: (s.data ++ u) = c :: rest; rw [hu]⟩
  · show c :: s.data ≠ []
    simp

/-- Every token the rule step produces is a non-empty prefix of the
remaining characters: its literal is exactly what it consumed. -/
theorem ruleTok_consumes (c : Char) (rest : List Char) (t : Token)
    (h : ruleTok c rest = .ok t) :
    t.value.data <+: (c :: rest) ∧ t.value.data ≠ [] := by
  simp only [ruleTok] at h
  by_cases hc0 : c = 'N'
  · rw [if_pos hc0] at h
    by_cases hq0 : getC (c :: rest) 1 = some '\''
    · rw [if_pos hq0] at h
      obtain ⟨s, hs, rfl⟩ := map_ok h
      obtain ⟨r, hr⟩ := prefix_two '\'' hq0
      subst hr
      have hsp := takeWhileOrError_ok_spec hs (by decide) (by simp)
      exact prefix_string_tok hsp.1
    · rw [if_neg hq0] at h
      injection h with h
      subst h
      exact takeWhile_spec (by decide) (by simp)
  rw [if_neg hc0] at h
  by_cases hc1 : c = 'X' ∨ c = 'x'
  · rw [if_pos hc1] at h
    by_cases hq1 : getC (c :: rest) 1 = some '\''
    · rw [if_pos hq1] at h
      obtain ⟨s, hs, rfl⟩ := map_ok h
      obtain ⟨r, hr⟩ := prefix_two '\'' hq1
      subst hr
      have hsp := takeWhileOrError_ok_spec hs (by decide) (by simp)
      exact prefix_string_tok hsp.1
    · rw [if_neg hq1] at h
      injection h with h
      subst h
      exact takeWhile_spec (by decide) (by simp)
  rw [if_neg hc1] at h
  by_cases hc2 : isIdentifierStart c = true
  · rw [if_pos hc2] at h
    injection h with h
    subst h
    exact takeWhile_spec (by decide) (by simp)
  rw [if_neg hc2] at h
  by_cases hc3 : isDelimiteddIdentifierStart c = true
  · rw [if_pos hc3] at h
    obtain ⟨s, hs, rfl⟩ := map_ok h
    exact takeWhileOrError_ok_spec hs (by decide) (by simp)
  rw [if_neg hc3] at h
  by_cases hc4 : isDigitCh c = true
  · rw [if_pos hc4] at h
    injection h with h
    subst h
    exact takeWhile_spec (by decide) (by simp)
  rw [if_neg hc4] at h
  by_cases hc5 : c = ' '
  · rw [if_pos hc5] at h
    injection h with h
    subst h
    subst hc5
    exact ⟨⟨rest, rfl⟩, by decide⟩
  rw [if_neg hc5] at h
  by_cases hc6 : c = '\t'
  · rw [if_pos hc6] at h
    injection h with h
    subst h
    subst hc6
    exact ⟨⟨rest, rfl⟩, by decide⟩
  rw [if_neg hc6] at h
  by_cases hc7 : c = '\n'
  · rw [if_pos hc7] at h
    injection h with h
    subst h
    subst hc7
    exact ⟨⟨rest, rfl⟩, by decide⟩
  rw [if_neg hc7] at h
  by_cases hc8 : c = '\r'
  · rw [if_pos hc8] at h
    by_cases hq8x0 : getC (c :: rest) 1 = some '\n'
    · rw [if_pos hq8x0] at h
      injection h with h
      subst h
      subst hc8
      obtain ⟨r, hr⟩ := prefix_two '\n' hq8x0
      subst hr
      exact ⟨⟨r, rfl⟩, by decide⟩
    · rw [if_neg hq8x0] at h
      injection h with h
      subst h
      subst hc8
      exact ⟨⟨rest, rfl⟩, by decide⟩
  rw [if_neg hc8] at h
  by_cases hc9 : c = '\''
  · rw [if_pos hc9] at h
    obtain ⟨s, hs, rfl⟩ := map_ok h
    exact takeWhileOrError_ok_spec hs (by decide) (by simp)
  rw [if_neg hc9] at h
  by_cases hc10 : c = '('
  · rw [if_pos hc10] at h
    injection h with h
    subst h
    subst hc10
    exact ⟨⟨rest, rfl⟩, by decide⟩
  rw [if_neg hc10] at h
  by_cases hc11 : c = ')'
  · rw [if_pos hc11] at h
    injection h with h
    subst h
    subst hc11
    exact ⟨⟨rest, rfl⟩, by decide⟩
  rw [if_neg hc11] at h
  by_cases hc12 : c = ','
  · rw [if_pos hc12] at h
    injection h with h
    subst h
    subst hc12
    exact ⟨⟨rest, rfl⟩, by decide⟩
  rw [if_neg hc12] at h
  by_cases hc13 : c = '-'
  · rw [if_pos hc13] at h
    by_cases hq13x0 : getC (c :: rest) 1 = some '-'
    · rw [if_pos hq13x0] at h
      injection h with h
      subst h
      exact takeWhile_spec (by decide) (by simp)
    · rw [if_neg hq13x0] at h
      injection h with h
      subst h
      subst hc13
      exact ⟨⟨rest, rfl⟩, by decide⟩
  rw [if_neg hc13] at h
  by_cases hc14 : c = '/'
  · rw [if_pos hc14] at h
    by_cases hq14x0 : getC (c :: rest) 1 = some '*'
    · rw [if_pos hq14x0] at h
      obtain ⟨s, hs, rfl⟩ := map_ok h
      exact takeWhileOrError_ok_spec hs (by decide) (by simp)
    · rw [if_neg hq14x0] at h
      injection h with h
      subst h
      subst hc14
      exact ⟨⟨rest, rfl⟩, by decide⟩
  rw [if_neg hc14] at h
  by_cases hc15 : c = '+'
  · rw [if_pos hc15] at h
    injection h with h
    subst h
    subst hc15
    exact ⟨⟨rest, rfl⟩, by decide⟩
  rw [if_neg hc15] at h
  by_cases hc16 : c = '*'
  · rw [if_pos hc16] at h
    injection h with h
    subst h
    subst hc16
    exact ⟨⟨rest, rfl⟩, by decide⟩
  rw [if_neg hc16] at h
  by_cases hc17 : c = '%'
  · rw [if_pos hc17] at h
    injection h with h
    subst h
    subst hc17
    exact ⟨⟨rest, rfl⟩, by decide⟩
  rw [if_neg hc17] at h
  by_cases hc18 : c = '|'
  · rw [if_pos hc18] at h
    by_cases hq18x0 : getC (c :: rest) 1 = some '|'
    · rw [if_pos hq18x0] at h
      injection h with h
      subst h
      subst hc18
      obtain ⟨r, hr⟩ := prefix_two '|' hq18x0
      subst hr
      exact ⟨⟨r, rfl⟩, by decide⟩
    · rw [if_neg hq18x0] at h
      injection h with h
      subst h
      subst hc18
      exact ⟨⟨rest, rfl⟩, by decide⟩
  rw [if_neg hc18] at h
  by_cases hc19 : c = '='
  · rw [if_pos hc19] at h
    by_cases hq19x0 : getC (c :: rest) 1 = some '>'
    · rw [if_pos hq19x0] at h
      injection h with h
      subst h
      subst hc19
      obtain ⟨r, hr⟩ := prefix_two '>' hq19x0
      subst hr
      exact ⟨⟨r, rfl⟩, by decide⟩
    · rw [if_neg hq19x0] at h
      injection h with h
      subst h
      subst hc19
      exact ⟨⟨rest, rfl⟩, by decide⟩
  rw [if_neg hc19] at h
  by_cases hc20 : c = '.'
  · rw [if_pos hc20] at h
    injection h with h
    subst h
    subst hc20
    exact ⟨⟨rest, rfl⟩, by decide⟩
  rw [if_neg hc20] at h
  by_cases hc21 : c = '!'
  · rw [if_pos hc21] at h
    by_cases hq21x0 : getC (c :: rest) 1 = some '='
    · rw [if_pos hq21x0] at h
      injection h with h
      subst h
      subst hc21
      obtain ⟨r, hr⟩ := prefix_two '=' hq21x0
      subst hr
      exact ⟨⟨r, rfl⟩, by decide⟩
    · rw [if_neg hq21x0] at h
      by_cases hq21x1 : getC (c :: rest) 1 = some '!'
      · rw [if_pos hq21x1] at h
        injection h with h
        subst h
        subst hc21
        obtain ⟨r, hr⟩ := prefix_two '!' hq21x1
        subst hr
        exact ⟨⟨r, rfl⟩, by decide⟩
      · rw [if_neg hq21x1] at h
        injection h with h
        subst h
        subst hc21
        exact ⟨⟨rest, rfl⟩, by decide⟩
  rw [if_neg hc21] at h
  by_cases hc22 : c = '<'
  · rw [if_pos hc22] at h
    by_cases hq22x0 : getC (c :: rest) 1 = some '='
    · rw [if_pos hq22x0] at h
      injection h with h
      subst h
      subst hc22
      obtain ⟨r, hr⟩ := prefix_two '=' hq22x0
      subst hr
      exact ⟨⟨r, rfl⟩, by decide⟩
    · rw [if_neg hq22x0] at h
      by_cases hq22x1 : getC (c :: rest) 1 = some '>'
      · rw [if_pos hq22x1] at h
        injection h with h
        subst h
        subst hc22
        obtain ⟨r, hr⟩ := prefix_two '>' hq22x1
        subst hr
        exact ⟨⟨r, rfl⟩, by decide⟩
      · rw [if_neg hq22x1] at h
        by_cases hq22x2 : getC (c :: rest) 1 = some '<'
        · rw [if_pos hq22x2] at h
          injection h with h
          subst h
          subst hc22
          obtain ⟨r, hr⟩ := prefix_two '<' hq22x2
          subst hr
          exact ⟨⟨r, rfl⟩, by decide⟩
        · rw [if_neg hq22x2] at h
          injection h with h
          subst h
          subst hc22
          exact ⟨⟨rest, rfl⟩, by decide⟩
  rw [if_neg hc22] at h
  by_cases hc23 : c = '>'
  · rw [if_pos hc23] at h
    by_cases hq23x0 : getC (c :: rest) 1 = some '='
    · rw [if_pos hq23x0] at h
      injection h with h
      subst h
      subst hc23
      obtain ⟨r, hr⟩ := prefix_two '=' hq23x0
      subst hr
      exact ⟨⟨r, rfl⟩, by decide⟩
    · rw [if_neg hq23x0] at h
      by_cases hq23x1 : getC (c :: rest) 1 = some '>'
      · rw [if_pos hq23x1] at h
        injection h with h
        subst h
        subst hc23
        obtain ⟨r, hr⟩ := prefix_two '>' hq23x1
        subst hr
        exact ⟨⟨r, rfl⟩, by decide⟩
      · rw [if_neg hq23x1] at h
        injection h with h
        subst h
        subst hc23
        exact ⟨⟨rest, rfl⟩, by decide⟩
  rw [if_neg hc23] at h
  by_cases hc24 : c = ':'
  · rw [if_pos hc24] at h
    by_cases hq24x0 : getC (c :: rest) 1 = some ':'
    · rw [if_pos hq24x0] at h
      injection h with h
      subst h
      subst hc24
      obtain ⟨r, hr⟩ := prefix_two ':' hq24x0
      subst hr
      exact ⟨⟨r, rfl⟩, by decide⟩
    · rw [if_neg hq24x0] at h
      injection h with h
      subst h
      subst hc24
      exact ⟨⟨rest, rfl⟩, by decide⟩
  rw [if_neg hc24] at h
  by_cases hc25 : c = ';'
  · rw [if_pos hc25] at h
    injection h with h
    subst h
    subst hc25
    exact ⟨⟨rest, rfl⟩, by decide⟩
  rw [if_neg hc25] at h
  by_cases hc26 : c = '\\'
  · rw [if_pos hc26] at h
    injection h with h
    subst h
    subst hc26
    exact ⟨⟨rest, rfl⟩, by decide⟩
  rw [if_neg hc26] at h
  by_cases hc27 : c = '['
  · rw [if_pos hc27] at h
    injection h with h
    subst h
    subst hc27
    exact ⟨⟨rest, rfl⟩, by decide⟩
  rw [if_neg hc27] at h
  by_cases hc28 : c = ']'
  · rw [if_pos hc28] at h
    injection h with h
    subst h
    subst hc28
    exact ⟨⟨rest, rfl⟩, by decide⟩
  rw [if_neg hc28] at h
  by_cases hc29 : c = '&'
  · rw [if_pos hc29] at h
    injection h with h
    subst h
    subst hc29
    exact ⟨⟨rest, rfl⟩, by decide⟩
  rw [if_neg hc29] at h
  by_cases hc30 : c = '^'
  · rw [if_pos hc30] at h
    injection h with h
    subst h
    subst hc30
    exact ⟨⟨rest, rfl⟩, by decide⟩
  rw [if_neg hc30] at h
  by_cases hc31 : c = '\x7b'
  · rw [if_pos hc31] at h
    injection h with h
    subst h
    subst hc31
    exact ⟨⟨rest, rfl⟩, by decide⟩
  rw [if_neg hc31] at h
  by_cases hc32 : c = '\x7d'
  · rw [if_pos hc32] at h
    injection h with h
    subst h
    subst hc32
    exact ⟨⟨rest, rfl⟩, by decide⟩
  rw [if_neg hc32] at h
  by_cases hc33 : c = '~'
  · rw [if_pos hc33] at h
    injection h with h
    subst h
    subst hc33
    exact ⟨⟨rest, rfl⟩, by decide⟩
  rw [if_neg hc33] at h
  injection h with h
  subst h
  exact ⟨⟨rest, rfl⟩, by show ([c] : List Char) ≠ []; simp⟩

/-- Every error the rule step can throw is one of the three
unterminated-literal messages. -/
theorem ruleTok_err_msg (c : Char) (rest : List Char) (m : String)
    (h : ruleTok c rest = .error m) :
    m = TOKENIZE_SINGLE_QUOTED_STRING_ERROR ∨ m = TOKENIZE_DELIMITED_STRING_ERROR ∨
      m = TOKENIZE_MULTI_LINE_COMMENT_ERROR := by
  simp only [ruleTok] at h
  by_cases hc0 : c = 'N'
  · rw [if_pos hc0] at h
    by_cases hq : getC (c :: rest) 1 = some '\''
    · rw [if_pos hq] at h
      have hx := map_err h
      exact Or.inl (takeWhileOrError_err hx)
    · rw [if_neg hq] at h
      exact Except.noConfusion h
  rw [if_neg hc0] at h
  by_cases hc1 : c = 'X' ∨ c = 'x'
  · rw [if_pos hc1] at h
    by_cases hq : getC (c :: rest) 1 = some '\''
    · rw [if_pos hq] at h
      have hx := map_err h
      exact Or.inl (takeWhileOrError_err hx)
    · rw [if_neg hq] at h
      exact Except.noConfusion h
  rw [if_neg hc1] at h
  by_cases hc2 : isIdentifierStart c = true
  · rw [if_pos hc2] at h
    exact Except.noConfusion h
  rw [if_neg hc2] at h
  by_cases hc3 : isDelimiteddIdentifierStart c = true
  · rw [if_pos hc3] at h
    have hx := map_err h
    exact Or.inr (Or.inl (takeWhileOrError_err hx))
  rw [if_neg hc3] at h
  by_cases hc4 : isDigitCh c = true
  · rw [if_pos hc4] at h
    exact Except.noConfusion h
  rw [if_neg hc4] at h
  by_cases hc5 : c = ' '
  · rw [if_pos hc5] at h
    exact Except.noConfusion h
  rw [if_neg hc5] at h
  by_cases hc6 : c = '\t'
  · rw [if_pos hc6] at h
    exact Except.noConfusion h
  rw [if_neg hc6] at h
  by_cases hc7 : c = '\n'
  · rw [if_pos hc7] at h
    exact Except.noConfusion h
  rw [if_neg hc7] at h
  by_cases hc8 : c = '\r'
  · rw [if_pos hc8] at h
    by_cases hq8x0 : getC (c :: rest) 1 = some '\n'
    · rw [if_pos hq8x0] at h
      exact Except.noConfusion h
    · rw [if_neg hq8x0] at h
      exact Except.noConfusion h
  rw [if_neg hc8] at h
  by_cases hc9 : c = '\''
  · rw [if_pos hc9] at h
    have hx := map_err h
    exact Or.inl (takeWhileOrError_err hx)
  rw [if_neg hc9] at h
  by_cases hc10 : c = '('
  · rw [if_pos hc10] at h
    exact Except.noConfusion h
  rw [if_neg hc10] at h
  by_cases hc11 : c = ')'
  · rw [if_pos hc11] at h
    exact Except.noConfusion h
  rw [if_neg hc11] at h
  by_cases hc12 : c = ','
  · rw [if_pos hc12] at h
    exact Except.noConfusion h
  rw [if_neg hc12] at h
  by_cases hc13 : c = '-'
  · rw [if_pos hc13] at h
    by_cases hq13x0 : getC (c :: rest) 1 = some '-'
    · rw [if_pos hq13x0] at h
      exact Except.noConfusion h
    · rw [if_neg hq13x0] at h
      exact Except.noConfusion h
  rw [if_neg hc13] at h
  by_cases hc14 : c = '/'
  · rw [if_pos hc14] at h
    by_cases hq : getC (c :: rest) 1 = some '*'
    · rw [if_pos hq] at h
      have hx := map_err h
      exact Or.inr (Or.inr (takeWhileOrError_err hx))
    · rw [if_neg hq] at h
      exact Except.noConfusion h
  rw [if_neg hc14] at h
  by_cases hc15 : c = '+'
  · rw [if_pos hc15] at h
    exact Except.noConfusion h
  rw [if_neg hc15] at h
  by_cases hc16 : c = '*'
  · rw [if_pos hc16] at h
    exact Except.noConfusion h
  rw [if_neg hc16] at h
  by_cases hc17 : c = '%'
  · rw [if_pos hc17] at h
    exact Except.noConfusion h
  rw [if_neg hc17] at h
  by_cases hc18 : c = '|'
  · rw [if_pos hc18] at h
    by_cases hq18x0 : getC (c :: rest) 1 = some '|'
    · rw [if_pos hq18x0] at h
      exact Except.noConfusion h
    · rw [if_neg hq18x0] at h
      exact Except.noConfusion h
  rw [if_neg hc18] at h
  by_cases hc19 : c = '='
  · rw [if_pos hc19] at h
    by_cases hq19x0 : getC (c :: rest) 1 = some '>'
    · rw [if_pos hq19x0] at h
      exact Except.noConfusion h
    · rw [if_neg hq19x0] at h
      exact Except.noConfusion h
  rw [if_neg hc19] at h
  by_cases hc20 : c = '.'
  · rw [if_pos hc20] at h
    exact Except.noConfusion h
  rw [if_neg hc20] at h
  by_cases hc21 : c = '!'
  · rw [if_pos hc21] at h
    by_cases hq21x0 : getC (c :: rest) 1 = some '='
    · rw [if_pos hq21x0] at h
      exact Except.noConfusion h
    · rw [if_neg hq21x0] at h
      by_cases hq21x1 : getC (c :: rest) 1 = some '!'
      · rw [if_pos hq21x1] at h
        exact Except.noConfusion h
      · rw [if_neg hq21x1] at h
        exact Except.noConfusion h
  rw [if_neg hc21] at h
  by_cases hc22 : c = '<'
  · rw [if_pos hc22] at h
    by_cases hq22x0 : getC (c :: rest) 1 = some '='
    · rw [if_pos hq22x0] at h
      exact Except.noConfusion h
    · rw [if_neg hq22x0] at h
      by_cases hq22x1 : getC (c :: rest) 1 = some '>'
      · rw [if_pos hq22x1] at h
        exact Except.noConfusion h
      · rw [if_neg hq22x1] at h
        by_cases hq22x2 : getC (c :: rest) 1 = some '<'
        · rw [if_pos hq22x2] at h
          exact Except.noConfusion h
        · rw [if_neg hq22x2] at h
          exact Except.noConfusion h
  rw [if_neg hc22] at h
  by_cases hc23 : c = '>'
  · rw [if_pos hc23] at h
    by_cases hq23x0 : getC (c :: rest) 1 = some '='
    · rw [if_pos hq23x0] at h
      exact Except.noConfusion h
    · rw [if_neg hq23x0] at h
      by_cases hq23x1 : getC (c :: rest) 1 = some '>'
      · rw [if_pos hq23x1] at h
        exact Except.noConfusion h
      · rw [if_neg hq23x1] at h
        exact Except.noConfusion h
  rw [if_neg hc23] at h
  by_cases hc24 : c = ':'
  · rw [if_pos hc24] at h
    by_cases hq24x0 : getC (c :: rest) 1 = some ':'
    · rw [if_pos hq24x0] at h
      exact Except.noConfusion h
    · rw [if_neg hq24x0] at h
      exact Except.noConfusion h
  rw [if_neg hc24] at h
  by_cases hc25 : c = ';'
  · rw [if_pos hc25] at h
    exact Except.noConfusion h
  rw [if_neg hc25] at h
  by_cases hc26 : c = '\\'
  · rw [if_pos hc26] at h
    exact Except.noConfusion h
  rw [if_neg hc26] at h
  by_cases hc27 : c = '['
  · rw [if_pos hc27] at h
    exact Except.noConfusion h
  rw [if_neg hc27] at h
  by_cases hc28 : c = ']'
  · rw [if_pos hc28] at h
    exact Except.noConfusion h
  rw [if_neg hc28] at h
  by_cases hc29 : c = '&'
  · rw [if_pos hc29] at h
    exact Except.noConfusion h
  rw [if_neg hc29] at h
  by_cases hc30 : c = '^'
  · rw [if_pos hc30] at h
    exact Except.noConfusion h
  rw [if_neg hc30] at h
  by_cases hc31 : c = '\x7b'
  · rw [if_pos hc31] at h
    exact Except.noConfusion h
  rw [if_neg hc31] at h
  by_cases hc32 : c = '\x7d'
  · rw [if_pos hc32] at h
    exact Except.noConfusion h
  rw [if_neg hc32] at h
  by_cases hc33 : c = '~'
  · rw [if_pos hc33] at h
    exact Except.noConfusion h
  rw [if_neg hc33] at h
  exact Except.noConfusion h

/-- An unrecognized character is scanned as a length-1 `Other`
token rather than an error. -/
theorem ruleTok_other (c : Char) (rest : List Char) (h : hasRule c = false) :
    ruleTok c rest = .ok (.other (String.mk [c])) := by
  simp only [ruleTok]
  have hc0 : ¬(c = 'N') := by
    intro hh
    rw [hh] at h
    exact absurd h (by decide)
  rw [if_neg hc0]
  have hc1 : ¬(c = 'X' ∨ c = 'x') := by
    intro hh
    cases hh with
    | inl hh => rw [hh] at h; exact absurd h (by decide)
    | inr hh => rw [hh] at h; exact absurd h (by decide)
  rw [if_neg hc1]
  have hc2 : ¬(isIdentifierStart c = true) := by
    intro hh
    simp [hasRule, hh] at h
  rw [if_neg hc2]
  have hc3 : ¬(isDelimiteddIdentifierStart c = true) := by
    intro hh
    simp [hasRule, hh] at h
  rw [if_neg hc3]
  have hc4 : ¬(isDigitCh c = true) := by
    intro hh
    simp [hasRule, hh] at h
  rw [if_neg hc4]
  have hc5 : ¬(c = ' ') := by
    intro hh
    rw [hh] at h
    exact absurd h (by decide)
  rw [if_neg hc5]
  have hc6 : ¬(c = '\t') := by
    intro hh
    rw [hh] at h
    exact absurd h (by decide)
  rw [if_neg hc6]
  have hc7 : ¬(c = '\n') := by
    intro hh
    rw [hh] at h
    exact absurd h (by decide)
  rw [if_neg hc7]
  have hc8 : ¬(c = '\r') := by
    intro hh
    rw [hh] at h
    exact absurd h (by decide)
  rw [if_neg hc8]
  have hc9 : ¬(c = '\'') := by
    intro hh
    rw [hh] at h
    exact absurd h (by decide)
  rw [if_neg hc9]
  have hc10 : ¬(c = '(') := by
    intro hh
    rw [hh] at h
    exact absurd h (by decide)
  rw [if_neg hc10]
  have hc11 : ¬(c = ')') := by
    intro hh
    rw [hh] at h
    exact absurd h (by decide)
  rw [if_neg hc11]
  have hc12 : ¬(c = ',') := by
    intro hh
    rw [hh] at h
    exact absurd h (by decide)
  rw [if_neg hc12]
  have hc13 : ¬(c = '-') := by
    intro hh
    rw [hh] at h
    exact absurd h (by decide)
  rw [if_neg hc13]
  have hc14 : ¬(c = '/') := by
    intro hh
    rw [hh] at h
    exact absurd h (by decide)
  rw [if_neg hc14]
  have hc15 : ¬(c = '+') := by
    intro hh
    rw [hh] at h
    exact absurd h (by decide)
  rw [if_neg hc15]
  have hc16 : ¬(c = '*') := by
    intro hh
    rw [hh] at h
    exact absurd h (by decide)
  rw [if_neg hc16]
  have hc17 : ¬(c = '%') := by
    intro hh
    rw [hh] at h
    exact absurd h (by decide)
  rw [if_neg hc17]
  have hc18 : ¬(c = '|') := by
    intro hh
    rw [hh] at h
    exact absurd h (by decide)
  rw [if_neg hc18]
  have hc19 : ¬(c = '=') := by
    intro hh
    rw [hh] at h
    exact absurd h (by decide)
  rw [if_neg hc19]
  have hc20 : ¬(c = '.') := by
    intro hh
    rw [hh] at h
    exact absurd h (by decide)
  rw [if_neg hc20]
  have hc21 : ¬(c = '!') := by
    intro hh
    rw [hh] at h
    exact absurd h (by decide)
  rw [if_neg hc21]
  have hc22 : ¬(c = '<') := by
    intro hh
    rw [hh] at h
    exact absurd h (by decide)
  rw [if_neg hc22]
  have hc23 : ¬(c = '>') := by
    intro hh
    rw [hh] at h
    exact absurd h (by decide)
  rw [if_neg hc23]
  have hc24 : ¬(c = ':') := by
    intro hh
    rw [hh] at h
    exact absurd h (by decide)
  rw [if_neg hc24]
  have hc25 : ¬(c = ';') := by
    intro hh
    rw [hh] at h
    exact absurd h (by decide)
  rw [if_neg hc25]
  have hc26 : ¬(c = '\\') := by
    intro hh
    rw [hh] at h
    exact absurd h (by decide)
  rw [if_neg hc26]
  have hc27 : ¬(c = '[') := by
    intro hh
    rw [hh] at h
    exact absurd h (by decide)
  rw [if_neg hc27]
  have hc28 : ¬(c = ']') := by
    intro hh
    rw [hh] at h
    exact absurd h (by decide)
  rw [if_neg hc28]
  have hc29 : ¬(c = '&') := by
    intro hh
    rw [hh] at h
    exact absurd h (by decide)
  rw [if_neg hc29]
  have hc30 : ¬(c = '^') := by
    intro hh
    rw [hh] at h
    exact absurd h (by decide)
  rw [if_neg hc30]
  have hc31 : ¬(c = '\x7b') := by
    intro hh
    rw [hh] at h
    exact absurd h (by decide)
  rw [if_neg hc31]
  have hc32 : ¬(c = '\x7d') := by
    intro hh
    rw [hh] at h
    exact absurd h (by decide)
  rw [if_neg hc32]
  have hc33 : ¬(c = '~') := by
    intro hh
    rw [hh] at h
    exact absurd h (by decide)
  rw [if_neg hc33]

/-- Successful scans concatenate back to the scanned characters
(the fuel is never exhausted while it exceeds the remaining input,
because every token consumes at least one character). -/
theorem tokenizeAux_concat :
    ∀ (fuel : Nat) (cs : List Char) (row col : Nat) (ts : List Token),
      cs.length < fuel → tokenizeAux fuel cs row col = .ok ts →
      (ts.map (fun t => t.value.data)).flatten = cs := by
  intro fuel
  induction fuel with
  | zero => intro cs row col ts hlen _; exact absurd hlen (Nat.not_lt_zero _)
  | succ f ih =>
    intro cs row col ts hlen htok
    cases cs with
    | nil =>
      simp only [tokenizeAux] at htok
      injection htok with h2
      subst h2
      rfl
    | cons c rest =>
      simp only [tokenizeAux] at htok
      split at htok
      next m hr => exact Except.noConfusion htok
      next t hr =>
        split at htok
        next e hrec => exact Except.noConfusion htok
        next ts2 hrec =>
          injection htok with h2
          subst h2
          obtain ⟨hp, hnn⟩ := ruleTok_consumes c rest t hr
          have hlen1 : 1 ≤ t.value.data.length := by
            cases hd : t.value.data with
            | nil => exact absurd hd hnn
            | cons a l => simp [hd]
          have htake : (c :: rest).take t.value.data.length = t.value.data :=
            (List.prefix_iff_eq_take.mp hp).symm
          have hdrop : ((c :: rest).drop t.length).length < f := by
            have h1 : t.length = t.value.data.length := rfl
            have h2 : ((c :: rest).drop t.length).length = (c :: rest).length - t.length :=
              List.length_drop _ _
            have h3 : (c :: rest).length = rest.length + 1 := rfl
            omega
          have ihres := ih ((c :: rest).drop t.length) _ _ ts2 hdrop hrec
          show ((t :: ts2).map (fun t => t.value.data)).flatten = c :: rest
          rw [List.map_cons, List.flatten_cons, ihres]
          calc t.value.data ++ (c :: rest).drop t.length
              = (c :: rest).take t.length ++ (c :: rest).drop t.length := by
                rw [show t.length = t.value.data.length from rfl, htake]
            _ = c :: rest := List.take_append_drop _ _

/-- A scan failure always carries one of the three
unterminated-literal messages. -/
theorem tokenizeAux_err :
    ∀ (fuel : Nat) (cs : List Char) (row col : Nat) (e : TokErr),
      cs.length < fuel → tokenizeAux fuel cs row col = .error e →
      e.msg = TOKENIZE_SINGLE_QUOTED_STRING_ERROR ∨
        e.msg = TOKENIZE_DELIMITED_STRING_ERROR ∨
        e.msg = TOKENIZE_MULTI_LINE_COMMENT_ERROR := by
  intro fuel
  induction fuel with
  | zero => intro cs row col e hlen _; exact absurd hlen (Nat.not_lt_zero _)
  | succ f ih =>
    intro cs row col e hlen htok
    cases cs with
    | nil =>
      simp only [tokenizeAux] at htok
      exact Except.noConfusion htok
    | cons c rest =>
      simp only [tokenizeAux] at htok
      split at htok
      next m hr =>
        injection htok with h2
        subst h2
        exact ruleTok_err_msg c rest m hr
      next t hr =>
        split at htok
        next e2 hrec =>
          injection htok with h2
          subst h2
          obtain ⟨hp, hnn⟩ := ruleTok_consumes c rest t hr
          have hlen1 : 1 ≤ t.value.data.length := by
            cases hd : t.value.data with
            | nil => exact absurd hd hnn
            | cons a l => simp [hd]
          have hdrop : ((c :: rest).drop t.length).length < f := by
            have h1 : t.length = t.value.data.length := rfl
            have h2 : ((c :: rest).drop t.length).length = (c :: rest).length - t.length :=
              List.length_drop _ _
            have h3 : (c :: rest).length = rest.length + 1 := rfl
            omega
          exact ih ((c :: rest).drop t.length) _ _ e2 hdrop hrec
        next ts2 hrec => exact Except.noConfusion htok

/-- String concatenation acts on the underlying character lists. -/
theorem String_append_data (a b : String) : (a ++ b).data = a.data ++ b.data := rfl

/-- Strings with equal character lists are equal. -/
theorem String_eq_of_data {a b : String} (h : a.data = b.data) : a = b :=
  congrArg String.mk h

/-- The literal concatenation of a token list, at the character
level. -/
theorem concatValues_data (ts : List Token) :
    (concatValues ts).data = (ts.map (fun t => t.value.data)).flatten := by
  induction ts with
  | nil => rfl
  | cons t ts ih =>
    show (t.value ++ concatValues ts).data = _
    rw [String_append_data, ih, List.map_cons, List.flatten_cons]

/-- Binding a non-terminating parser step never terminates. -/
theorem bind_eq_spin {α β : Type} (x : POut α) (f : α → POut β) (h : x = .spin) :
    POut.bind x f = .spin := by
  rw [h]
  rfl


/-! ## Claim theorems -/

/-- C1: refuted by the code (code bug).  The claim says `parse`
returns the ordered list of statements or throws.  In the source,
`parse` (part_000 lines 92-109) never returns the `statements` array
(the function has no return statement) and never advances `idx` past
a parsed statement, so (1) on `CREATE t;` the statement loop reparses
the same statement forever, for every fuel; (2) on the empty input it
terminates but yields `undefined` (`done`), not a statement list;
(3) consequently `parse "CREATE t;"` never returns at all. -/
theorem claim1_parse_never_returns_list :
    (∀ (fuel : Nat) (stmts : List CreateTableStatement),
        parseLoop (toks "CREATE t;") fuel 0 false stmts = .spin)
    ∧ parse 5 "" = .ok .done
    ∧ (∀ fuel : Nat, parse fuel "CREATE t;" = .ok .spin) := by
  have h1 : ∀ (fuel : Nat) (stmts : List CreateTableStatement),
      parseLoop (toks "CREATE t;") fuel 0 false stmts = .spin := by
    intro fuel
    induction fuel with
    | zero => intro stmts; rfl
    | succ f ih => intro stmts; exact ih (stmts ++ [stmtCREATEt])
  refine ⟨h1, rfl, ?_⟩
  intro fuel
  show Except.ok (parseLoop (toks "CREATE t;") fuel 0 false []) = Except.ok ParseOutcome.spin
  rw [h1 fuel []]

/-- C1 witness: the non-termination at a concrete fuel. -/
theorem claim1_witness : parse 3 "CREATE t;" = .ok .spin :=
  claim1_parse_never_returns_list.2.2 3

/-- C2: refuted by the code (code bug).  The claim says every parsing
function consumes a token or fails, and in particular the
`ON DELETE`/`ON UPDATE` loop always terminates.  The loop (part_000
lines 220-230) exits only once BOTH clauses are set; on
`REFERENCES u (c) NOT NULL` the `ON DELETE` keywords are not next,
the iteration changes no state, and the loop (hence
`parseOptionalColumnOption`) runs forever, for every fuel. -/
theorem claim2_references_loop_spins :
    (∀ fuel : Nat, refLoop refTs fuel 7 none none = .spin)
    ∧ (∀ fuel : Nat, parseOptionalColumnOption fuel refTs 0 = .spin) := by
  have h1 : ∀ fuel : Nat, refLoop refTs fuel 7 none none = .spin := by
    intro fuel
    induction fuel with
    | zero => rfl
    | succ f ih => exact ih
  exact ⟨h1, fun fuel => bind_eq_spin _ _ (h1 fuel)⟩

/-- C2 witness: the non-termination at a concrete fuel. -/
theorem claim2_witness : parseOptionalColumnOption 4 refTs 0 = .spin :=
  claim2_references_loop_spins.2 4

/-- C3: refuted by the code (code bug).  The claim says the spec's
example input yields one statement with two columns.  In the source no
`TABLE` keyword is ever consumed (part_000 lines 110-119), so `TABLE`
itself is parsed as the table name, the `(` is not reached (the token
`t` intervenes) and the statement comes back with ZERO columns;
independently, `parseColumns` discards the position of its consumed
`(` (line 154) and its loop re-reads from `start` (line 160), so a
real parenthesized column list such as `(id INT)` always throws
"column name or constraint definition". -/
theorem claim3_example_statement_fails :
    parseCreateStatement
        (toks "CREATE TABLE t (id INT PRIMARY KEY, name VARCHAR(10) NOT NULL DEFAULT 'x')") 0
      = .ok ⟨⟨[⟨"TABLE", none⟩]⟩, [], [], [], false, false, false, false, none, none, none⟩
    ∧ parseColumns (toks "(id INT)") 0
      = .err "Expected: column name or constraint definition, found: (" :=
  ⟨rfl, rfl⟩

/-- C4: refuted by the code (code bug).  The claim describes standard
precedence climbing with the spec's three examples.  In the source a
plain identifier not followed by `(` or `.` falls through the
identifier block of `parsePrefix` (part_000 lines 374-401, the
`Identifier` return sits inside the `(`/`.` branch) into the final
"an expression" error, so `a OR b AND c` and `a::int + 1` both throw
instead of parsing (and independently, the generic infix branch at
line 564 parses its right-hand side with the default minimum
precedence instead of the operator's). -/
theorem claim4_precedence_examples_fail :
    parseExpr (toks "a OR b AND c") 0 = .err "Expected: an expression, found: OR"
    ∧ parseExpr (toks "a::int + 1") 0 = .err "Expected: an expression, found: ::" :=
  ⟨rfl, rfl⟩

/-- C5: refuted by the code (code bug).  The claim says
`x BETWEEN 1 AND 10` and `x NOT BETWEEN 1 AND 10` parse into
`Between` nodes.  Both throw in `parsePrefix` (the identifier
fall-through bug, part_000 lines 374-413); moreover even with a
parseable prefix a NON-negated `BETWEEN` throws "IN or BETWEEN after
NOT" because `parseInfix` (lines 577-583) consumes the `BETWEEN`
token and then looks for ANOTHER `IN`/`BETWEEN` keyword; only the
`NOT BETWEEN` form reaches `parseBetween` (negated = true). -/
theorem claim5_between_fails :
    parseExpr (toks "x BETWEEN 1 AND 10") 0 = .err "Expected: an expression, found: BETWEEN"
    ∧ parseExpr (toks "x NOT BETWEEN 1 AND 10") 0 = .err "Expected: an expression, found: NOT"
    ∧ parseExpr (toks "1 BETWEEN 2 AND 10") 0 = .err "Expected: IN or BETWEEN after NOT, found: 2"
    ∧ parseExpr (toks "1 NOT BETWEEN 2 AND 10") 0
        = .ok (11, .between (.valueE (.numberV "1")) true (.valueE (.numberV "2"))
            (.valueE (.numberV "10"))) :=
  ⟨rfl, rfl, rfl, rfl⟩

/-- C6: refuted by the code (code bug).  The claim says
`nextMeaningfulToken` / `peekToken` skip comment tokens as well as
whitespace.  In part_001 `Cmmnt extends Token`, not `Whitespace`, so
the skip loop of part_000 lines 673-682 stops AT a comment and
returns it as the meaningful token; inserting `--x` after `CREATE`
turns a successful parse into "Expected: identifier, found: --x". -/
theorem claim6_comments_not_skipped :
    nextMeaningfulToken (toks "--x\nt") 0 = (1, some (.cmmnt "--x"))
    ∧ parseCreateStatement (toks "CREATE --x\nt") 0 = .err "Expected: identifier, found: --x"
    ∧ parseCreateStatement (toks "CREATE t") 0
        = .ok ⟨⟨[⟨"t", none⟩]⟩, [], [], [], false, false, true, false, none, none, none⟩ :=
  ⟨rfl, rfl, rfl⟩

/-- C7: confirmed.  Tokenization is lossless: whenever `tokenize`
succeeds, concatenating all token literals in order reconstructs the
source exactly (each token's literal is exactly the characters it
consumed — the scanner advances by `token.length`, and
`ruleTok_consumes` shows the literal is a prefix of the remaining
input). -/
theorem claim7_lossless_tokenization :
    ∀ (src : String) (ts : List Token), tokenize src = .ok ts → concatValues ts = src := by
  intro src ts h
  have hc := tokenizeAux_concat (src.data.length + 1) src.data 1 1 ts (Nat.lt_succ_self _) h
  apply String_eq_of_data
  rw [concatValues_data, hc]

/-- C7 witness: losslessness at a concrete input. -/
theorem claim7_witness :
    tokenize "a<=b" = .ok (toks "a<=b") ∧ concatValues (toks "a<=b") = "a<=b" :=
  ⟨rfl, claim7_lossless_tokenization "a<=b" (toks "a<=b") rfl⟩

/-- C8 counterexample: the claim says `tokenize` throws EXACTLY for
the three unterminated cases.  But `'ab'` — a properly TERMINATED
string — throws "Unterminated string literal" at row 1, col 1 when it
ends exactly at end of input (the scanner needs a lookahead character
past the closing quote: the same text followed by a space scans as a
complete string token). -/
theorem claim8_counterexample :
    tokenize "'ab' " = .ok [.sqs "'ab'", .ws " "]
    ∧ tokenize "'ab'" = .error ⟨TOKENIZE_SINGLE_QUOTED_STRING_ERROR, 1, 1⟩ :=
  ⟨rfl, rfl⟩

/-- C8 (amended): every `TokenizeError` carries one of the three
scanner messages (string, delimited identifier, block comment) with
1-based row/column — though such an error is also raised when the
token would end exactly at end of input — and any character the
dispatch does not recognize becomes an `Other` token of length 1
rather than an error. -/
theorem claim8_amended :
    (∀ (src : String) (e : TokErr), tokenize src = .error e →
        e.msg = TOKENIZE_SINGLE_QUOTED_STRING_ERROR ∨
        e.msg = TOKENIZE_DELIMITED_STRING_ERROR ∨
        e.msg = TOKENIZE_MULTI_LINE_COMMENT_ERROR)
    ∧ (∀ c : Char, hasRule c = false →
        tokenize (String.mk [c]) = .ok [.other (String.mk [c])]) := by
  constructor
  · intro src e h
    exact tokenizeAux_err (src.data.length + 1) src.data 1 1 e (Nat.lt_succ_self _) h
  · intro c hc
    have hr := ruleTok_other c [] hc
    show tokenizeAux 2 [c] 1 1 = .ok [.other (String.mk [c])]
    simp only [tokenizeAux, hr]

/-- C8 witness: the amended statement at concrete inputs. -/
theorem claim8_amended_witness :
    ((⟨TOKENIZE_SINGLE_QUOTED_STRING_ERROR, 1, 1⟩ : TokErr).msg
        = TOKENIZE_SINGLE_QUOTED_STRING_ERROR
      ∨ (⟨TOKENIZE_SINGLE_QUOTED_STRING_ERROR, 1, 1⟩ : TokErr).msg
        = TOKENIZE_DELIMITED_STRING_ERROR
      ∨ (⟨TOKENIZE_SINGLE_QUOTED_STRING_ERROR, 1, 1⟩ : TokErr).msg
        = TOKENIZE_MULTI_LINE_COMMENT_ERROR)
    ∧ tokenize (String.mk ['?']) = .ok [.other (String.mk ['?'])] :=
  ⟨claim8_amended.1 "'ab" ⟨TOKENIZE_SINGLE_QUOTED_STRING_ERROR, 1, 1⟩ rfl,
   claim8_amended.2 '?' (by decide)⟩

/-- C9: refuted by the code (code bug).  The claim says a
single-quoted-string token carries its unescaped content (doubled
quotes collapsed) separately from its literal.  part_001's
`SingleQuotedString` stores only ONE string — the raw literal with
quotes and doubling intact (`'a''b'`, not `a'b`) — while the doubling
IS treated as an escape for termination purposes (the input below is
one string token, not two); the parser (part_000 lines 476 and 486)
reads a `content` field this class does not define. -/
theorem claim9_string_token_raw :
    tokenize "'a''b' " = .ok [.sqs "'a''b'", .ws " "] ∧ "'a''b'" ≠ "a'b" :=
  ⟨rfl, by decide⟩

/-- C10 counterexample: the claim's example says `CREATE TABLE t`
sets `withoutRowid = true`.  It does not: the grammar never consumes
a `TABLE` keyword, so `TABLE` is parsed as the table name, the token
`t` is still unconsumed when `parseKeywords ['WITHOUT','ROWID']`
runs, and `withoutRowid` comes back `false`. -/
theorem claim10_counterexample :
    parseCreateStatement (toks "CREATE TABLE t") 0
      = .ok ⟨⟨[⟨"TABLE", none⟩]⟩, [], [], [], false, false, false, false, none, none, none⟩ :=
  rfl

/-- C10 (amended): `parseKeywords` reports `found = true` whenever
the cursor is at or beyond the end of the token sequence before the
keyword list is exhausted — an empty match at end-of-input (first
conjunct) and a partial match that runs off the end (second
conjunct) both count as full matches — and an input that really puts
the cursor at end-of-input right after the parsed table name, such as
`CREATE TABLE` (whose parsed name is `TABLE`), does set
`withoutRowid = true` (third conjunct). -/
theorem claim10_amended :
    (∀ (ts : List Token) (start : Nat) (ks : List String),
        ts.length ≤ start → parseKeywords ts start ks = (start, true))
    ∧ parseKeywords (toks "WITHOUT") 0 ["WITHOUT", "ROWID"] = (1, true)
    ∧ parseCreateStatement (toks "CREATE TABLE") 0
        = .ok ⟨⟨[⟨"TABLE", none⟩]⟩, [], [], [], false, false, true, false, none, none, none⟩ := by
  refine ⟨?_, rfl, rfl⟩
  intro ts start ks h
  cases ks with
  | nil => rfl
  | cons k ks =>
    show parseKeywordsGo ts start start (k :: ks) = (start, true)
    simp only [parseKeywordsGo]
    rw [if_neg (Nat.not_lt.mpr h)]

/-- C10 witness: the amended statement at a concrete input. -/
theorem claim10_witness :
    parseKeywords ([] : List Token) 0 ["WITHOUT", "ROWID"] = (0, true) :=
  claim10_amended.1 [] 0 ["WITHOUT", "ROWID"] (Nat.le_refl 0)

end DDDL
